import Mathlib

/-!
# SDL Android audio glue

A shallow embedding of `src/core/android/sdl_android_audio.c`: the statics of the
file become an explicit record that every operation takes and returns, the managed
side (the Java class `SDLAudioManager` reached through JNI) becomes a record of
answer functions, and every call that crosses the JNI boundary is written to an
event trace, so that statements such as "issues exactly one write call" are
statements about that trace. Sequences of calls are runs of a step function that
also keeps the global references alive; the permission protocol, where threads
interleave, is a step function over the atomic operations of each thread, driven by
a schedule.
-/

namespace SDLAndroidAudio

/-! ## Constants and data -/

/-- Wire encoding `ENCODING_PCM_8BIT` of the managed audio service. -/
def ENCODING_PCM_8BIT : Int := 3

/-- Wire encoding `ENCODING_PCM_16BIT` of the managed audio service. -/
def ENCODING_PCM_16BIT : Int := 2

/-- Wire encoding `ENCODING_PCM_FLOAT` of the managed audio service. -/
def ENCODING_PCM_FLOAT : Int := 4

/-- Modelled from the spec: the engine's sample encodings (`SDL_AudioFormat`, declared
in `SDL_audio.h`, which is not among the sources). The spec names U8, S16 and F32;
every other format code the engine knows is `other code`. -/
inductive SDL_AudioFormat
  | AUDIO_U8
  | AUDIO_S16
  | AUDIO_F32
  | other (code : Nat)
  deriving DecidableEq, Repr

/-- Modelled from the spec: the stream format record (`SDL_AudioSpec`, declared in
`SDL_audio.h`, which is not among the sources), with the four fields the bridge reads
and writes. The spec's StreamFormat gives them as
`{ sampleRate: int, encoding, channels: int, framesPerBuffer: int }`; here
`freq` is the sample rate and `samples` the frames per buffer, as the code names them. -/
structure SDL_AudioSpec where
  freq : Int
  format : SDL_AudioFormat
  channels : Int
  samples : Int
  deriving DecidableEq, Repr

/-- Element type of a Java primitive array: `jbyte`, `jshort` or `jfloat`. -/
inductive ElemKind
  | byte
  | short
  | float
  deriving DecidableEq, Repr

/-- Size in bytes of one element: `sizeof(jbyte)`, `sizeof(Sint16)`, `sizeof(float)`. -/
def ElemKind.size : ElemKind → Int
  | .byte => 1
  | .short => 2
  | .float => 4

/-- A Java primitive array as the bridge holds it through a global reference
(`jobject`): the reference value, the element type fixed by the `New<T>Array` call
that made it, and its length in elements. A NULL `jobject` is `none`. -/
structure JArray where
  ref : Nat
  kind : ElemKind
  length : Int
  deriving DecidableEq, Repr

/-- Number of bytes the elements of the array occupy. -/
def JArray.byteSize (a : JArray) : Int := a.length * a.kind.size

/-- A native pointer; `0` is NULL. -/
abbrev Ptr := Nat

/-- The mode argument of `Release<T>ArrayElements`. -/
inductive ReleaseMode
  | JNI_COMMIT
  | JNI_ABORT
  deriving DecidableEq, Repr

/-- Calls observed at the boundary of the bridge, in the order they are made: the
static methods of `SDLAudioManager`, the JNI calls that create, pin, release or
delete the audio buffers, the engine's device list calls, `SDL_memcpy` into the
caller's buffer (with its length, a `size_t`) and `SDL_assert`. Queries on the reply of the open call
(`GetArrayLength`, `GetIntArrayElements`) and deletions of local references are not
recorded. -/
inductive Event
  | audioOpen (freq audioformat channels samples device_id : Int)
  | captureOpen (freq audioformat channels samples device_id : Int)
  | NewArray (kind : ElemKind) (length : Int)
  | NewGlobalRef (kind : ElemKind) (length : Int)
  | DeleteGlobalRef (obj : JArray)
  | GetArrayElements (kind : ElemKind) (array : JArray)
  | ReleaseArrayElements (kind : ElemKind) (array : Option JArray) (elems : Ptr)
      (mode : ReleaseMode)
  | audioWriteBuffer (kind : ElemKind) (buffer : Option JArray)
  | captureReadBuffer (kind : ElemKind) (buffer : Option JArray) (blocking : Bool)
  | audioClose
  | captureClose
  | getAudioInputDevices
  | getAudioOutputDevices
  | SDL_memcpy (len : Int)
  | SDL_assert (cond : Bool)
  | SDL_AddAudioDevice (iscapture : Bool) (name : String) (handle : Nat)
  | SDL_RemoveAudioDevice (iscapture : Bool) (handle : Nat)
  deriving DecidableEq, Repr

/-- Answers of the managed side to the calls the bridge makes.
* `audioOpen`, `captureOpen`: the `int[]` the open method returns, `none` for `null`;
* `newArray`: whether `New<T>Array` of that length returns an array;
* `newGlobalRef`: the global reference made for that array, `none` for NULL;
* `getArrayElements`: the pointer `Get<T>ArrayElements` returns (`0` when it fails);
* `captureRead`: the count `captureRead<T>Buffer(buffer, blocking)` returns;
* `getAudioInputDevices`, `getAudioOutputDevices`: the `int[]` of device ids. -/
structure JavaVM where
  audioOpen : Int → Int → Int → Int → Int → Option (List Int)
  captureOpen : Int → Int → Int → Int → Int → Option (List Int)
  newArray : ElemKind → Int → Bool
  newGlobalRef : ElemKind → Int → Option Nat
  getArrayElements : JArray → Ptr
  captureRead : Option JArray → Bool → Int
  getAudioInputDevices : List Int
  getAudioOutputDevices : List Int

/-- The file's statics `audioBufferFormat`, `audioBuffer`, `audioBufferPinned`,
`captureBufferFormat`, `captureBuffer`. -/
structure AudioGlobals where
  audioBufferFormat : Int
  audioBuffer : Option JArray
  audioBufferPinned : Ptr
  captureBufferFormat : Int
  captureBuffer : Option JArray
  deriving DecidableEq, Repr

/-- Values of the statics at program start: formats `0`, references and pointer NULL. -/
def AudioGlobals.initial : AudioGlobals :=
  { audioBufferFormat := 0, audioBuffer := none, audioBufferPinned := 0,
    captureBufferFormat := 0, captureBuffer := none }

/-- The errors `Android_JNI_OpenAudioDevice` sets, one per message of the source:
"Unsupported audio format: 0x%x", "Java-side initialization failed",
"Unexpected results from Java, expected 4, got %d",
"Unexpected audio format from Java: %d", and `SDL_OutOfMemory()`. -/
inductive SDL_Error
  | unsupportedAudioFormat (format : SDL_AudioFormat)
  | javaInitFailed
  | unexpectedResults (got : Nat)
  | unexpectedAudioFormat (audioformat : Int)
  | outOfMemory
  deriving DecidableEq, Repr

/-- Modelled from the spec: the error taxonomy of section 7. -/
inductive ErrorKind
  | UnsupportedFormat
  | ServiceInitFailed
  | ProtocolMismatch
  | OutOfMemory
  deriving DecidableEq, Repr

/-- Modelled from the spec: which error of the taxonomy each error of the code is.
A reply that has not exactly four values and a reply whose wire encoding is not
recognised are both `ProtocolMismatch`. -/
def SDL_Error.kind : SDL_Error → ErrorKind
  | .unsupportedAudioFormat _ => .UnsupportedFormat
  | .javaInitFailed => .ServiceInitFailed
  | .unexpectedResults _ => .ProtocolMismatch
  | .unexpectedAudioFormat _ => .ProtocolMismatch
  | .outOfMemory => .OutOfMemory

/-! ## Format codec -/

/-- The first `switch` of `Android_JNI_OpenAudioDevice`: the wire encoding of an
engine format, `none` on the `default` branch. -/
def wireOfFormat : SDL_AudioFormat → Option Int
  | .AUDIO_U8 => some ENCODING_PCM_8BIT
  | .AUDIO_S16 => some ENCODING_PCM_16BIT
  | .AUDIO_F32 => some ENCODING_PCM_FLOAT
  | .other _ => none

/-- The second `switch` of `Android_JNI_OpenAudioDevice`: the engine format of a
wire encoding, `none` on the `default` branch. -/
def formatOfWire (audioformat : Int) : Option SDL_AudioFormat :=
  if audioformat = ENCODING_PCM_8BIT then some .AUDIO_U8
  else if audioformat = ENCODING_PCM_16BIT then some .AUDIO_S16
  else if audioformat = ENCODING_PCM_FLOAT then some .AUDIO_F32
  else none

/-- The `switch` on a wire encoding that selects the byte, short or float variant
of a JNI call or of a method of the service, `none` on the `default` branch. -/
def kindOfWire (audioformat : Int) : Option ElemKind :=
  if audioformat = ENCODING_PCM_8BIT then some .byte
  else if audioformat = ENCODING_PCM_16BIT then some .short
  else if audioformat = ENCODING_PCM_FLOAT then some .float
  else none

/-- Element type of the buffer of an engine format (`other` has none). -/
def kindOfFormat : SDL_AudioFormat → Option ElemKind
  | .AUDIO_U8 => some .byte
  | .AUDIO_S16 => some .short
  | .AUDIO_F32 => some .float
  | .other _ => none

/-! ## Open -/

/-- What a call of `Android_JNI_OpenAudioDevice` leaves behind: the returned `int`
(`0`, or `-1` from `SDL_SetError` and `SDL_OutOfMemory`), the error set, the caller's
`*spec`, the statics and the calls made. -/
structure OpenResult where
  ret : Int
  error : Option SDL_Error
  spec : SDL_AudioSpec
  globals : AudioGlobals
  events : List Event
  deriving DecidableEq, Repr

/-- The open call of the direction, as recorded in the trace. -/
def openEvent (iscapture : Bool) (freq audioformat channels samples device_id : Int) : Event :=
  if iscapture then .captureOpen freq audioformat channels samples device_id
  else .audioOpen freq audioformat channels samples device_id

/-- The answer of the service to the open call of the direction. -/
def JavaVM.openReply (vm : JavaVM) (iscapture : Bool)
    (freq audioformat channels samples device_id : Int) : Option (List Int) :=
  if iscapture then vm.captureOpen freq audioformat channels samples device_id
  else vm.audioOpen freq audioformat channels samples device_id

/-- The function `Android_JNI_OpenAudioDevice(iscapture, device_id, spec)`, branch by
branch: the `switch` on `spec->format`, the open call of the direction, the NULL and
length checks on its result, the decode `switch` that fills `*spec`, the allocation
`switch` (`New<T>Array` of `spec->samples * spec->channels` elements, then
`NewGlobalRef`), the NULL check on `jbufobj`, the assignment of the statics of the
direction and, for output, the pin `switch`. `iscapture` is the truth value of the
`int` argument. -/
def Android_JNI_OpenAudioDevice (vm : JavaVM) (g : AudioGlobals) (iscapture : Bool)
    (device_id : Int) (spec : SDL_AudioSpec) : OpenResult :=
  match wireOfFormat spec.format with
  | none => ⟨-1, some (.unsupportedAudioFormat spec.format), spec, g, []⟩
  | some requested =>
    let call := openEvent iscapture spec.freq requested spec.channels spec.samples device_id
    match vm.openReply iscapture spec.freq requested spec.channels spec.samples device_id with
    | none => ⟨-1, some .javaInitFailed, spec, g, [call]⟩
    | some resultElements =>
      if resultElements.length ≠ 4 then
        ⟨-1, some (.unexpectedResults resultElements.length), spec, g, [call]⟩
      else
        let spec1 := { spec with freq := resultElements.getD 0 0 }
        let audioformat := resultElements.getD 1 0
        match formatOfWire audioformat with
        | none => ⟨-1, some (.unexpectedAudioFormat audioformat), spec1, g, [call]⟩
        | some fmt =>
          let spec2 := { spec1 with format := fmt, channels := resultElements.getD 2 0,
                                    samples := resultElements.getD 3 0 }
          match kindOfWire audioformat with
          | none => ⟨-1, some (.unexpectedAudioFormat audioformat), spec2, g, [call]⟩
          | some kind =>
            let n := spec2.samples * spec2.channels
            if vm.newArray kind n = false then
              ⟨-1, some .outOfMemory, spec2, g, [call, .NewArray kind n]⟩
            else
              match vm.newGlobalRef kind n with
              | none =>
                ⟨-1, some .outOfMemory, spec2, g, [call, .NewArray kind n, .NewGlobalRef kind n]⟩
              | some r =>
                let jbufobj : JArray := ⟨r, kind, n⟩
                if iscapture then
                  ⟨0, none, spec2,
                    { g with captureBufferFormat := audioformat, captureBuffer := some jbufobj },
                    [call, .NewArray kind n, .NewGlobalRef kind n]⟩
                else
                  let g1 := { g with audioBufferFormat := audioformat,
                                     audioBuffer := some jbufobj }
                  match kindOfWire audioformat with
                  | none =>
                    ⟨-1, some (.unexpectedAudioFormat audioformat), spec2, g1,
                      [call, .NewArray kind n, .NewGlobalRef kind n]⟩
                  | some pinKind =>
                    ⟨0, none, spec2,
                      { g1 with audioBufferPinned := vm.getArrayElements jbufobj },
                      [call, .NewArray kind n, .NewGlobalRef kind n,
                       .GetArrayElements pinKind jbufobj]⟩

/-- A service that echoes the four request values of an open call back verbatim. -/
def Echoes (vm : JavaVM) : Prop :=
  ∀ (iscapture : Bool) (freq audioformat channels samples device_id : Int),
    vm.openReply iscapture freq audioformat channels samples device_id
      = some [freq, audioformat, channels, samples]

/-- Buffer allocation succeeds: `New<T>Array` returns an array and `NewGlobalRef`
a reference, for every element type and length. -/
def AllocSucceeds (vm : JavaVM) : Prop :=
  ∀ (kind : ElemKind) (n : Int), vm.newArray kind n = true ∧ (vm.newGlobalRef kind n).isSome

/-- A service used in examples: echoes open requests, allocates every buffer with
reference `7`, pins at address `4096`, reads `count` elements, lists no devices. -/
def echoVM (count : Int) : JavaVM :=
  { audioOpen := fun f a c s _ => some [f, a, c, s]
    captureOpen := fun f a c s _ => some [f, a, c, s]
    newArray := fun _ _ => true
    newGlobalRef := fun _ _ => some 7
    getArrayElements := fun _ => 4096
    captureRead := fun _ _ => count
    getAudioInputDevices := []
    getAudioOutputDevices := [] }

/-! ## Close, write pointer, commit -/

/-- The function `Android_JNI_CloseAudioDevice(iscapture)`: the close call of the
direction, then, when a buffer reference is held, `DeleteGlobalRef` on it and the
static set to NULL (for output also the pinned pointer). -/
def Android_JNI_CloseAudioDevice (g : AudioGlobals) (iscapture : Bool) :
    AudioGlobals × List Event :=
  if iscapture then
    match g.captureBuffer with
    | some b => ({ g with captureBuffer := none }, [.captureClose, .DeleteGlobalRef b])
    | none => (g, [.captureClose])
  else
    match g.audioBuffer with
    | some b =>
      ({ g with audioBuffer := none, audioBufferPinned := 0 }, [.audioClose, .DeleteGlobalRef b])
    | none => (g, [.audioClose])

/-- The function `Android_JNI_GetAudioBuffer()`. -/
def Android_JNI_GetAudioBuffer (g : AudioGlobals) : Ptr := g.audioBufferPinned

/-- The function `Android_JNI_WriteAudioBuffer()`: `Release<T>ArrayElements` with
`JNI_COMMIT`, then the write method of the variant of `audioBufferFormat`; on the
`default` branch only a log line. No static is assigned. -/
def Android_JNI_WriteAudioBuffer (g : AudioGlobals) : AudioGlobals × List Event :=
  match kindOfWire g.audioBufferFormat with
  | some kind =>
    (g, [.ReleaseArrayElements kind g.audioBuffer g.audioBufferPinned .JNI_COMMIT,
         .audioWriteBuffer kind g.audioBuffer])
  | none => (g, [])

/-- The statics after `k` calls of `Android_JNI_WriteAudioBuffer` in a row. -/
def commitTimes : Nat → AudioGlobals → AudioGlobals
  | 0, g => g
  | k + 1, g => commitTimes k (Android_JNI_WriteAudioBuffer g).1

/-! ## Capture read and flush -/

/-- Conversion of an `int` to `jint`/`int` after arithmetic in a wider or unsigned
type: the value modulo `2^32`, read as a signed 32-bit number. -/
def toJint (x : Int) : Int := (x + 2 ^ 31) % 2 ^ 32 - 2 ^ 31

/-- Conversion of an `int` to `size_t`, for a `size_t` of `ptrBits` bits. -/
def toSizeT (ptrBits : Nat) (x : Int) : Int := x % 2 ^ ptrBits

/-- The condition of the `SDL_assert` of `Android_JNI_CaptureAudioBuffer`:
`GetArrayLength(captureBuffer) == buflen` for bytes (a comparison of two `int`),
`GetArrayLength(captureBuffer) == (buflen / sizeof(T))` for short and float (a
comparison in `size_t`, as `sizeof` is unsigned). -/
def captureAssert (ptrBits : Nat) (kind : ElemKind) (length buflen : Int) : Bool :=
  match kind with
  | .byte => decide (length = buflen)
  | .short => decide (toSizeT ptrBits length = toSizeT ptrBits buflen / 2)
  | .float => decide (toSizeT ptrBits length = toSizeT ptrBits buflen / 4)

/-- The value of `br` returned (and, converted to `size_t`, handed to `SDL_memcpy`)
for a positive count `br` of the service: `br` itself for bytes, `br *= sizeof(T)`
for short and float, which is computed in `size_t` and stored back into the `jint`. -/
def scaledCount (kind : ElemKind) (br : Int) : Int :=
  match kind with
  | .byte => br
  | .short => toJint (br * 2)
  | .float => toJint (br * 4)

/-- The function `Android_JNI_CaptureAudioBuffer(buffer, buflen)`: the returned `br`
and the calls made. `br` starts at `-1`. On a recognised `captureBufferFormat` the
length assertion is evaluated (`SDL_assert` is a macro of `SDL_assert.h`, not among
the sources: its condition is recorded and the run continues, as with assertions
disabled or ignored), the blocking read method is called, and a positive count is
scaled to bytes in `br` and copied with `SDL_memcpy`, whose length parameter is a
`size_t`: the copy is recorded with `br` converted to `size_t`, the number of bytes
asked for, which is not the returned `br` once `br *= sizeof(T)` has wrapped to a
negative `int`. JNI array calls on a NULL `captureBuffer` have no defined result: `none`. -/
def Android_JNI_CaptureAudioBuffer (ptrBits : Nat) (vm : JavaVM) (g : AudioGlobals)
    (buflen : Int) : Option (Int × List Event) :=
  match kindOfWire g.captureBufferFormat with
  | none => some (-1, [])
  | some kind =>
    match g.captureBuffer with
    | none => none
    | some buf =>
      let br := vm.captureRead (some buf) true
      if 0 < br then
        let bytes := scaledCount kind br
        some (bytes,
          [.SDL_assert (captureAssert ptrBits kind buf.length buflen),
           .captureReadBuffer kind (some buf) true,
           .GetArrayElements kind buf,
           .SDL_memcpy (toSizeT ptrBits bytes),
           .ReleaseArrayElements kind (some buf) (vm.getArrayElements buf) .JNI_ABORT])
      else
        some (br,
          [.SDL_assert (captureAssert ptrBits kind buf.length buflen),
           .captureReadBuffer kind (some buf) true])

/-- The function `Android_JNI_FlushCapturedAudio()`, the branch that is compiled
(`#else`): one read method call with `JNI_FALSE`, its result dropped. -/
def Android_JNI_FlushCapturedAudio (g : AudioGlobals) : AudioGlobals × List Event :=
  match kindOfWire g.captureBufferFormat with
  | some kind => (g, [.captureReadBuffer kind g.captureBuffer false])
  | none => (g, [])

/-! ## Device enumeration -/

/-- The handle `(void *)((size_t)device_id + 1)` of a device id, for a `size_t` of
`ptrBits` bits. -/
def deviceHandle (ptrBits : Nat) (device_id : Int) : Nat :=
  ((toSizeT ptrBits device_id + 1) % 2 ^ ptrBits).toNat

/-- The JNI call `GetIntArrayRegion(array, 0, len, buf)`: the first `len` elements of
`array` overwrite the first `len` elements of `buf`. -/
def GetIntArrayRegion (array : List Int) (len : Int) (buf : List Int) : List Int :=
  array.take len.toNat ++ buf.drop len.toNat

/-- The function `Android_JNI_GetAudioDevices(devices, length, max_len, is_input)`:
the `devices` array and `*length` after the call, and the call made. -/
def Android_JNI_GetAudioDevices (vm : JavaVM) (devices : List Int) (max_len : Int)
    (is_input : Bool) : List Int × Int × List Event :=
  let result := if is_input then vm.getAudioInputDevices else vm.getAudioOutputDevices
  let call := if is_input then Event.getAudioInputDevices else Event.getAudioOutputDevices
  let length := min (result.length : Int) max_len
  (GetIntArrayRegion result length devices, length, [call])

/-- The registrations `SDL_AddAudioDevice(iscapture, name, NULL, handle)` of the loop
`for (int i = 0; i < length; ++i)` over `devices[i]`. -/
def addDevices (ptrBits : Nat) (iscapture : Bool) (devices : List Int) (length : Int) :
    List Event :=
  (List.range length.toNat).map fun i =>
    let device_id := devices.getD i 0
    Event.SDL_AddAudioDevice iscapture (toString device_id) (deviceHandle ptrBits device_id)

/-- The function `Android_DetectDevices()`: two zeroed arrays of 100 `int`, the input
devices queried and registered, then the output devices. -/
def Android_DetectDevices (ptrBits : Nat) (vm : JavaVM) : List Event :=
  let inputs := Android_JNI_GetAudioDevices vm (List.replicate 100 0) 100 true
  let outputs := Android_JNI_GetAudioDevices vm (List.replicate 100 0) 100 false
  inputs.2.2 ++ addDevices ptrBits true inputs.1 inputs.2.1
    ++ outputs.2.2 ++ addDevices ptrBits false outputs.1 outputs.2.1

/-- The native method `addAudioDevice(is_capture, device_id)` the service calls when
a device appears; `driver` says whether `SDL_GetCurrentAudioDriver()` is non-NULL. -/
def addAudioDevice (ptrBits : Nat) (driver : Bool) (is_capture : Bool) (device_id : Int) :
    List Event :=
  if driver then
    [.SDL_AddAudioDevice is_capture (toString device_id) (deviceHandle ptrBits device_id)]
  else []

/-- The native method `removeAudioDevice(is_capture, device_id)` the service calls when
a device disappears; `driver` says whether `SDL_GetCurrentAudioDriver()` is non-NULL. -/
def removeAudioDevice (ptrBits : Nat) (driver : Bool) (is_capture : Bool) (device_id : Int) :
    List Event :=
  if driver then [.SDL_RemoveAudioDevice is_capture (deviceHandle ptrBits device_id)] else []

/-- The registration `Android_DetectDevices` makes for one device id. -/
def registration (ptrBits : Nat) (iscapture : Bool) (device_id : Int) : Event :=
  .SDL_AddAudioDevice iscapture (toString device_id) (deviceHandle ptrBits device_id)

/-- A service that reports `n` input ids `0 .. n-1` and `n` output ids `1000 .. 1000+n-1`. -/
def devicesVM (n : Nat) : JavaVM :=
  { echoVM 0 with
    getAudioInputDevices := (List.range n).map Int.ofNat
    getAudioOutputDevices := (List.range n).map fun (i : Nat) => 1000 + Int.ofNat i }

/-! ## Counting calls in a trace -/

/-- Open calls of the service. -/
def Event.isOpen : Event → Bool
  | .audioOpen .. => true
  | .captureOpen .. => true
  | _ => false

/-- Close calls of the service. -/
def Event.isClose : Event → Bool
  | .audioClose => true
  | .captureClose => true
  | _ => false

/-- Write calls of the service. -/
def Event.isWrite : Event → Bool
  | .audioWriteBuffer .. => true
  | _ => false

/-- Read calls of the service. -/
def Event.isRead : Event → Bool
  | .captureReadBuffer .. => true
  | _ => false

/-- Releases of a global reference. -/
def Event.isRelease : Event → Bool
  | .DeleteGlobalRef _ => true
  | _ => false

/-- Copies into the caller's buffer. -/
def Event.isCopy : Event → Bool
  | .SDL_memcpy _ => true
  | _ => false

/-- The close call of a direction. -/
def closeEvent (iscapture : Bool) : Event :=
  if iscapture then .captureClose else .audioClose

/-- The reference the bridge holds for a direction. -/
def AudioGlobals.buffer (g : AudioGlobals) (iscapture : Bool) : Option JArray :=
  if iscapture then g.captureBuffer else g.audioBuffer

/-- The request of the spec's scenario: 44100 Hz, S16, 2 channels, 1024 frames. -/
def scenarioSpec : SDL_AudioSpec := ⟨44100, .AUDIO_S16, 2, 1024⟩

/-- A service used in examples that gives the same answers to every call: `reply` to
an open call, `allocOk` and `ref` to the allocation calls, `pin` to a pin call and
`count` to a read call; it lists no devices. -/
def fixedVM (reply : Option (List Int)) (allocOk : Bool) (ref : Option Nat) (pin : Ptr)
    (count : Int) : JavaVM :=
  { audioOpen := fun _ _ _ _ _ => reply
    captureOpen := fun _ _ _ _ _ => reply
    newArray := fun _ _ => allocOk
    newGlobalRef := fun _ _ => ref
    getArrayElements := fun _ => pin
    captureRead := fun _ _ => count
    getAudioInputDevices := []
    getAudioOutputDevices := [] }

/-- Bytes per element of an engine format: 1, 2, 4 for U8, S16, F32 (the sizes of
`jbyte`, `jshort`, `jfloat`); formats without a buffer have 0. -/
def elementSize : SDL_AudioFormat → Int
  | .AUDIO_U8 => 1
  | .AUDIO_S16 => 2
  | .AUDIO_F32 => 4
  | .other _ => 0

/-- A service used in examples that answers the scenario's request verbatim and
allocates the buffer, but whose pin call `Get<T>ArrayElements` fails (returns NULL). -/
def pinFailsVM : JavaVM := fixedVM (some [44100, 2, 2, 1024]) true (some 7) 0 0

/-- A capture request used in examples: 44100 Hz, U8, 2 channels, 2 frames, so a
capture buffer of 4 bytes. -/
def smallCaptureSpec : SDL_AudioSpec := ⟨44100, .AUDIO_U8, 2, 2⟩

/-! ## Sequences of calls and the references alive -/

/-- One call of the bridge's buffer interface, with the service that answers it. -/
inductive Op
  | openDevice (vm : JavaVM) (iscapture : Bool) (device_id : Int) (spec : SDL_AudioSpec)
  | closeDevice (iscapture : Bool)
  | commit
  | read (ptrBits : Nat) (vm : JavaVM) (buflen : Int)
  | flush

/-- The statics together with the global references that `NewGlobalRef` has made and
`DeleteGlobalRef` has not yet deleted, per direction. -/
structure World where
  globals : AudioGlobals
  liveOutput : List JArray
  liveCapture : List JArray
  deriving DecidableEq, Repr

/-- Program start: the initial statics and no reference alive. -/
def World.initial : World := ⟨.initial, [], []⟩

/-- The references alive for a direction. -/
def World.live (w : World) (iscapture : Bool) : List JArray :=
  if iscapture then w.liveCapture else w.liveOutput

/-- The world with the references alive for one direction replaced. -/
def World.setLive (w : World) (iscapture : Bool) (l : List JArray) : World :=
  if iscapture then { w with liveCapture := l } else { w with liveOutput := l }

/-- The references made by the `NewGlobalRef` calls of a trace: each such call, on an
array of `kind` and `length`, makes the reference the service answers it with, and
none when the answer is NULL. -/
def made (vm : JavaVM) (events : List Event) : List JArray :=
  events.filterMap fun e =>
    match e with
    | .NewGlobalRef kind length => (vm.newGlobalRef kind length).map fun ref => ⟨ref, kind, length⟩
    | _ => none

/-- The references deleted by the `DeleteGlobalRef` calls of a trace. -/
def released (events : List Event) : List JArray :=
  events.filterMap fun e =>
    match e with
    | .DeleteGlobalRef b => some b
    | _ => none

/-- One call of the bridge: the statics change as the function says, every reference
made by a `NewGlobalRef` call of Open's trace joins those alive for its direction,
every reference deleted by a `DeleteGlobalRef` call of Close's trace leaves them (the
other functions make neither call). A Read that has no defined result (`none`) has no
successor. -/
def step (w : World) : Op → Option World
  | .openDevice vm iscapture device_id spec =>
    let r := Android_JNI_OpenAudioDevice vm w.globals iscapture device_id spec
    some (({ w with globals := r.globals }).setLive iscapture
      (w.live iscapture ++ made vm r.events))
  | .closeDevice iscapture =>
    let c := Android_JNI_CloseAudioDevice w.globals iscapture
    some (({ w with globals := c.1 }).setLive iscapture
      ((released c.2).foldl List.erase (w.live iscapture)))
  | .commit => some { w with globals := (Android_JNI_WriteAudioBuffer w.globals).1 }
  | .read ptrBits vm buflen =>
    match Android_JNI_CaptureAudioBuffer ptrBits vm w.globals buflen with
    | none => none
    | some _ => some w
  | .flush => some { w with globals := (Android_JNI_FlushCapturedAudio w.globals).1 }

/-- A sequence of calls, one after the other. -/
def run : List Op → World → Option World
  | [], w => some w
  | op :: ops, w =>
    match step w op with
    | none => none
    | some w1 => run ops w1

/-- The states a sequence of calls passes through, the starting state first; the list
ends at the state in which a call has no successor. -/
def visited : List Op → World → List World
  | [], w => [w]
  | op :: ops, w =>
    w :: match step w op with
      | none => []
      | some w1 => visited ops w1

/-- Whether a call respects the session state machine: Open for a direction is made
only while the bridge holds no reference for that direction. -/
def Op.allowed (w : World) : Op → Bool
  | .openDevice _ iscapture _ _ => (w.globals.buffer iscapture).isNone
  | _ => true

/-- Whether every call of a sequence respects the session state machine (a reopen
passes through Close). -/
def disciplined : List Op → World → Bool
  | [], _ => true
  | op :: ops, w =>
    op.allowed w &&
      match step w op with
      | none => true
      | some w1 => disciplined ops w1

/-- The references alive are exactly the references the bridge holds. -/
def HeldOnly (w : World) : Prop :=
  ∀ iscapture : Bool, w.live iscapture = (w.globals.buffer iscapture).toList

/-- A service used in examples that answers the scenario's request verbatim,
allocates the buffer with reference `ref` and pins it at address `pin`. -/
def scenarioVM (ref : Nat) (pin : Ptr) : JavaVM :=
  fixedVM (some [44100, 2, 2, 1024]) true (some ref) pin 0

/-- A capture session that is closed and then read from: the Read finds a recognised
format and a NULL buffer, and has no successor. -/
def readAfterCloseOps : List Op :=
  [.openDevice (echoVM 3) true 5 smallCaptureSpec,
   .closeDevice true,
   .read 64 (echoVM 3) 4,
   .openDevice (echoVM 3) true 5 smallCaptureSpec]

/-- Two calls of Open for output in a row, with no Close between them. -/
def reopenOps : List Op :=
  [.openDevice (scenarioVM 7 4096) false 2 scenarioSpec,
   .openDevice (scenarioVM 8 8192) false 2 scenarioSpec]

/-- A sequence of calls in which each direction is opened only while it is closed:
output is opened, written, closed and opened again, capture is opened, read, flushed
and closed twice. -/
def sessionOps : List Op :=
  [.openDevice (scenarioVM 7 4096) false 2 scenarioSpec,
   .commit,
   .openDevice (echoVM 3) true 5 smallCaptureSpec,
   .read 64 (echoVM 3) 4,
   .flush,
   .closeDevice false,
   .openDevice (scenarioVM 8 8192) false 2 scenarioSpec,
   .closeDevice true,
   .closeDevice true]

/-! ## Permission requests -/

/-- The statics `bPermissionRequestPending` and `bPermissionRequestResult`. -/
structure PermissionState where
  pending : Bool
  result : Bool
  deriving DecidableEq, Repr

/-- The native method `nativePermissionResult(requestCode, result)`: it stores
`result`, then clears the pending flag; `requestCode` is not read. -/
def nativePermissionResult (s : PermissionState) (_requestCode : Int) (result : Bool) :
    PermissionState :=
  { { s with result := result } with pending := false }

/-- Where a thread stands inside `Android_JNI_RequestPermission`: at the test of the
first `while` loop, at `SDL_AtomicSet(&bPermissionRequestPending, SDL_TRUE)`, at the
call of `requestPermission`, at the test of the second `while` loop, at
`return bPermissionRequestResult`, or returned. -/
inductive PermissionPC
  | waitFree
  | setPending
  | request
  | waitDone
  | readResult
  | returned (granted : Bool)
  deriving DecidableEq, Repr

/-- A thread that calls `Android_JNI_RequestPermission(permission)`. -/
structure Caller where
  permission : String
  pc : PermissionPC
  deriving DecidableEq, Repr

/-- A call `requestPermission(permission, requestCode)` of the service, with the index
of the thread that made it. -/
structure RequestCall where
  caller : Nat
  permission : String
  requestCode : Int
  deriving DecidableEq, Repr

/-- A request the service has received and not yet completed: the request code and
result its completion callback will carry, and whether the callback has already
stored the result (its first assignment) without having cleared the flag yet. -/
structure Completion where
  requestCode : Int
  granted : Bool
  resultStored : Bool
  deriving DecidableEq, Repr

/-- The process seen by the permission protocol: the two statics, the calling
threads, the requests in flight at the service (oldest first) and the request calls
made so far (oldest first). -/
structure PermissionConfig where
  state : PermissionState
  callers : List Caller
  inflight : List Completion
  requests : List RequestCall
  deriving DecidableEq, Repr

/-- Who takes the next step: the calling thread of that index, or the service's
callback thread. -/
inductive Actor
  | caller (i : Nat)
  | service
  deriving DecidableEq, Repr

/-- One step of a thread inside `Android_JNI_RequestPermission`: one evaluation of a
loop test (`SDL_AtomicGet`, and `SDL_Delay(10)` when the flag is set), the
`SDL_AtomicSet`, the call of `requestPermission` with `requestCode = 1`, or the
`return`. `grant` is the answer the service will give to a permission name. -/
def callerStep (grant : String → Bool) (i : Nat) (c : PermissionConfig) (t : Caller) :
    PermissionConfig × Caller :=
  match t.pc with
  | .waitFree => if c.state.pending then (c, t) else (c, { t with pc := .setPending })
  | .setPending => ({ c with state := { c.state with pending := true } }, { t with pc := .request })
  | .request =>
    ({ c with inflight := c.inflight ++ [⟨1, grant t.permission, false⟩],
              requests := c.requests ++ [⟨i, t.permission, 1⟩] },
      { t with pc := .waitDone })
  | .waitDone => if c.state.pending then (c, t) else (c, { t with pc := .readResult })
  | .readResult => (c, { t with pc := .returned c.state.result })
  | .returned _ => (c, t)

/-- One step of the service's callback thread on the oldest request in flight: the
first assignment of `nativePermissionResult` (`bPermissionRequestResult = result`),
or, when that is done, the second (`SDL_AtomicSet(&bPermissionRequestPending,
SDL_FALSE)`), which completes the request. With no request in flight nothing
happens. -/
def serviceStep (c : PermissionConfig) : PermissionConfig :=
  match c.inflight with
  | [] => c
  | k :: rest =>
    if k.resultStored then
      { c with state := { c.state with pending := false }, inflight := rest }
    else
      { c with state := { c.state with result := k.granted },
               inflight := { k with resultStored := true } :: rest }

/-- One step of the process. -/
def permissionStep (grant : String → Bool) (c : PermissionConfig) : Actor → PermissionConfig
  | .caller i =>
    match c.callers.get? i with
    | none => c
    | some t =>
      let r := callerStep grant i c t
      { r.1 with callers := r.1.callers.set i r.2 }
  | .service => serviceStep c

/-- The process after the steps of a schedule, taken in order. -/
def permissionRun (grant : String → Bool) (schedule : List Actor) (c : PermissionConfig) :
    PermissionConfig :=
  schedule.foldl (permissionStep grant) c

/-- The process when the threads enter `Android_JNI_RequestPermission`, one per
permission name: no request pending, none in flight, none made; `result` is the value
the static holds at that time. -/
def PermissionConfig.start (permissions : List String) (result : Bool) : PermissionConfig :=
  { state := ⟨false, result⟩,
    callers := permissions.map fun p => ⟨p, .waitFree⟩,
    inflight := [],
    requests := [] }

/-- What holds of the process at every moment when a single thread calls
`Android_JNI_RequestPermission(name)` from a clear flag and the service answers a
request for `name` with `grant name`: before the call of `requestPermission` nothing
is in flight; after it exactly one request call has been made, with request code 1,
and the flag stays set until the completion callback has stored the answer and
cleared it; the thread leaves the second loop only then. -/
def SingleCallerInv (grant : String → Bool) (name : String) (c : PermissionConfig) : Prop :=
  ∃ pc, c.callers = [⟨name, pc⟩] ∧
    match pc with
    | .waitFree => c.state.pending = false ∧ c.inflight = [] ∧ c.requests = []
    | .setPending => c.state.pending = false ∧ c.inflight = [] ∧ c.requests = []
    | .request => c.state.pending = true ∧ c.inflight = [] ∧ c.requests = []
    | .waitDone =>
      c.requests = [⟨0, name, 1⟩]
        ∧ ((c.state.pending = true ∧ c.inflight = [⟨1, grant name, false⟩])
          ∨ (c.state.pending = true ∧ c.inflight = [⟨1, grant name, true⟩]
              ∧ c.state.result = grant name)
          ∨ (c.state.pending = false ∧ c.inflight = [] ∧ c.state.result = grant name))
    | .readResult =>
      c.requests = [⟨0, name, 1⟩] ∧ c.state.pending = false ∧ c.inflight = []
        ∧ c.state.result = grant name
    | .returned v =>
      c.requests = [⟨0, name, 1⟩] ∧ c.state.pending = false ∧ c.inflight = []
        ∧ c.state.result = grant name ∧ v = grant name

/-- The schedule of a single caller whose completion arrives while it polls: three
steps up to the request call, `d1` polls, the callback's first assignment, `d2`
polls, the callback's second assignment, the poll that finds the flag clear and the
`return`. -/
def singleCallerSchedule (d1 d2 : Nat) : List Actor :=
  List.replicate 3 (.caller 0) ++ List.replicate d1 (.caller 0) ++ [.service]
    ++ List.replicate d2 (.caller 0) ++ [.service] ++ [.caller 0, .caller 0]

/-! # Theorems -/


/-! ## Lemmas on the codec and on Open -/

theorem formatOfWire_wireOfFormat (f : SDL_AudioFormat) (w : Int)
    (h : wireOfFormat f = some w) : formatOfWire w = some f := by
  cases f <;> simp [wireOfFormat] at h <;> subst h <;>
    simp [formatOfWire, ENCODING_PCM_8BIT, ENCODING_PCM_16BIT, ENCODING_PCM_FLOAT]

theorem kindOfWire_wireOfFormat (f : SDL_AudioFormat) (w : Int)
    (h : wireOfFormat f = some w) : kindOfWire w = kindOfFormat f := by
  cases f <;> simp [wireOfFormat] at h <;> subst h <;>
    simp [kindOfWire, kindOfFormat, ENCODING_PCM_8BIT, ENCODING_PCM_16BIT, ENCODING_PCM_FLOAT]

theorem kindOfWire_formatOfWire (w : Int) (f : SDL_AudioFormat)
    (h : formatOfWire w = some f) : kindOfWire w = kindOfFormat f := by
  unfold formatOfWire at h
  unfold kindOfWire
  split_ifs at h ⊢ <;> simp at h <;> subst h <;> rfl

theorem kindOfWire_isSome (w : Int) (f : SDL_AudioFormat)
    (h : formatOfWire w = some f) : ∃ kind, kindOfWire w = some kind := by
  unfold formatOfWire at h
  unfold kindOfWire
  split_ifs at h ⊢ <;> exact ⟨_, rfl⟩

theorem wireOfFormat_isSome (f : SDL_AudioFormat)
    (h : f = .AUDIO_U8 ∨ f = .AUDIO_S16 ∨ f = .AUDIO_F32) :
    ∃ w, wireOfFormat f = some w := by
  rcases h with h | h | h <;> subst h <;> exact ⟨_, rfl⟩

/-- Open on a reply of four values with a recognised wire encoding, when both
allocation calls succeed: the result, written out. -/
theorem open_success_eq (vm : JavaVM) (g : AudioGlobals) (iscapture : Bool) (device_id : Int)
    (spec : SDL_AudioSpec) (w r0 r1 r2 r3 : Int) (fmt : SDL_AudioFormat) (kind : ElemKind)
    (ref : Nat)
    (hsup : wireOfFormat spec.format = some w)
    (hreply : vm.openReply iscapture spec.freq w spec.channels spec.samples device_id
      = some [r0, r1, r2, r3])
    (hfmt : formatOfWire r1 = some fmt) (hkind : kindOfWire r1 = some kind)
    (hnew : vm.newArray kind (r3 * r2) = true)
    (href : vm.newGlobalRef kind (r3 * r2) = some ref) :
    Android_JNI_OpenAudioDevice vm g iscapture device_id spec =
      if iscapture then
        ⟨0, none, ⟨r0, fmt, r2, r3⟩,
          { g with captureBufferFormat := r1, captureBuffer := some ⟨ref, kind, r3 * r2⟩ },
          [openEvent iscapture spec.freq w spec.channels spec.samples device_id,
           .NewArray kind (r3 * r2), .NewGlobalRef kind (r3 * r2)]⟩
      else
        ⟨0, none, ⟨r0, fmt, r2, r3⟩,
          { g with audioBufferFormat := r1, audioBuffer := some ⟨ref, kind, r3 * r2⟩,
                   audioBufferPinned := vm.getArrayElements ⟨ref, kind, r3 * r2⟩ },
          [openEvent iscapture spec.freq w spec.channels spec.samples device_id,
           .NewArray kind (r3 * r2), .NewGlobalRef kind (r3 * r2),
           .GetArrayElements kind ⟨ref, kind, r3 * r2⟩]⟩ := by
  simp [Android_JNI_OpenAudioDevice, hsup, hreply, hfmt, hkind, hnew, href]

/-- Open when the service returns no result. -/
theorem open_no_result_eq (vm : JavaVM) (g : AudioGlobals) (iscapture : Bool) (device_id : Int)
    (spec : SDL_AudioSpec) (w : Int)
    (hsup : wireOfFormat spec.format = some w)
    (hreply : vm.openReply iscapture spec.freq w spec.channels spec.samples device_id = none) :
    Android_JNI_OpenAudioDevice vm g iscapture device_id spec =
      ⟨-1, some .javaInitFailed, spec, g,
        [openEvent iscapture spec.freq w spec.channels spec.samples device_id]⟩ := by
  simp [Android_JNI_OpenAudioDevice, hsup, hreply]

/-- Open when the reply does not carry exactly four values. -/
theorem open_wrong_length_eq (vm : JavaVM) (g : AudioGlobals) (iscapture : Bool)
    (device_id : Int) (spec : SDL_AudioSpec) (w : Int) (xs : List Int)
    (hsup : wireOfFormat spec.format = some w)
    (hreply : vm.openReply iscapture spec.freq w spec.channels spec.samples device_id = some xs)
    (hlen : xs.length ≠ 4) :
    Android_JNI_OpenAudioDevice vm g iscapture device_id spec =
      ⟨-1, some (.unexpectedResults xs.length), spec, g,
        [openEvent iscapture spec.freq w spec.channels spec.samples device_id]⟩ := by
  simp [Android_JNI_OpenAudioDevice, hsup, hreply, hlen]

/-- Open when the reply has four values and an unrecognised wire encoding. -/
theorem open_unrecognised_eq (vm : JavaVM) (g : AudioGlobals) (iscapture : Bool)
    (device_id : Int) (spec : SDL_AudioSpec) (w r0 r1 r2 r3 : Int)
    (hsup : wireOfFormat spec.format = some w)
    (hreply : vm.openReply iscapture spec.freq w spec.channels spec.samples device_id
      = some [r0, r1, r2, r3])
    (hfmt : formatOfWire r1 = none) :
    Android_JNI_OpenAudioDevice vm g iscapture device_id spec =
      ⟨-1, some (.unexpectedAudioFormat r1), { spec with freq := r0 }, g,
        [openEvent iscapture spec.freq w spec.channels spec.samples device_id]⟩ := by
  simp [Android_JNI_OpenAudioDevice, hsup, hreply, hfmt]

/-- Open when the reply has four values and a recognised wire encoding: the only
error left is `SDL_OutOfMemory`. -/
theorem open_recognised_error (vm : JavaVM) (g : AudioGlobals) (iscapture : Bool)
    (device_id : Int) (spec : SDL_AudioSpec) (w r0 r1 r2 r3 : Int) (fmt : SDL_AudioFormat)
    (hsup : wireOfFormat spec.format = some w)
    (hreply : vm.openReply iscapture spec.freq w spec.channels spec.samples device_id
      = some [r0, r1, r2, r3])
    (hfmt : formatOfWire r1 = some fmt) :
    (Android_JNI_OpenAudioDevice vm g iscapture device_id spec).error = none
      ∨ (Android_JNI_OpenAudioDevice vm g iscapture device_id spec).error
          = some .outOfMemory := by
  obtain ⟨kind, hk⟩ := kindOfWire_isSome r1 fmt hfmt
  cases hnew : vm.newArray kind (r3 * r2) with
  | false =>
    right
    simp [Android_JNI_OpenAudioDevice, hsup, hreply, hfmt, hk, hnew]
  | true =>
    cases href : vm.newGlobalRef kind (r3 * r2) with
    | none =>
      right
      simp [Android_JNI_OpenAudioDevice, hsup, hreply, hfmt, hk, hnew, href]
    | some ref =>
      left
      rw [open_success_eq vm g iscapture device_id spec w r0 r1 r2 r3 fmt kind ref hsup hreply
        hfmt hk hnew href]
      cases iscapture <;> rfl

/-- The wire encodings the second `switch` of Open does not recognise. -/
theorem formatOfWire_eq_none_iff (w : Int) :
    formatOfWire w = none ↔ w ≠ 3 ∧ w ≠ 2 ∧ w ≠ 4 := by
  unfold formatOfWire ENCODING_PCM_8BIT ENCODING_PCM_16BIT ENCODING_PCM_FLOAT
  split_ifs <;> simp_all

/-- A list of length four, written out. -/
theorem list_length_four (xs : List Int) (h : xs.length = 4) :
    ∃ a b c d, xs = [a, b, c, d] := by
  match xs, h with
  | [a, b, c, d], _ => exact ⟨a, b, c, d, rfl⟩

theorem echoVM_echoes (count : Int) : Echoes (echoVM count) := by
  intro iscapture freq audioformat channels samples device_id
  cases iscapture <;> rfl

theorem echoVM_alloc (count : Int) : AllocSucceeds (echoVM count) := by
  intro kind n
  exact ⟨rfl, rfl⟩

/-- A call of Open that returns 0 went through every check: the request was
supported, the reply had four values with a recognised wire encoding, and both
allocation calls succeeded. -/
theorem open_ret_zero_inv (vm : JavaVM) (g : AudioGlobals) (iscapture : Bool) (device_id : Int)
    (spec : SDL_AudioSpec)
    (hok : (Android_JNI_OpenAudioDevice vm g iscapture device_id spec).ret = 0) :
    ∃ (w r0 r1 r2 r3 : Int) (fmt : SDL_AudioFormat) (kind : ElemKind) (ref : Nat),
      wireOfFormat spec.format = some w
        ∧ vm.openReply iscapture spec.freq w spec.channels spec.samples device_id
            = some [r0, r1, r2, r3]
        ∧ formatOfWire r1 = some fmt ∧ kindOfWire r1 = some kind
        ∧ vm.newArray kind (r3 * r2) = true
        ∧ vm.newGlobalRef kind (r3 * r2) = some ref := by
  cases hw : wireOfFormat spec.format with
  | none => simp [Android_JNI_OpenAudioDevice, hw] at hok
  | some w =>
    cases hrep : vm.openReply iscapture spec.freq w spec.channels spec.samples device_id with
    | none => simp [open_no_result_eq vm g iscapture device_id spec w hw hrep] at hok
    | some xs =>
      by_cases hlen : xs.length = 4
      · obtain ⟨r0, r1, r2, r3, rfl⟩ := list_length_four xs hlen
        cases hf : formatOfWire r1 with
        | none =>
          simp [open_unrecognised_eq vm g iscapture device_id spec w r0 r1 r2 r3 hw hrep hf]
            at hok
        | some fmt =>
          obtain ⟨kind, hk⟩ := kindOfWire_isSome r1 fmt hf
          cases hnew : vm.newArray kind (r3 * r2) with
          | false =>
            simp [Android_JNI_OpenAudioDevice, hw, hrep, hf, hk, hnew] at hok
          | true =>
            cases href : vm.newGlobalRef kind (r3 * r2) with
            | none => simp [Android_JNI_OpenAudioDevice, hw, hrep, hf, hk, hnew, href] at hok
            | some ref => exact ⟨w, r0, r1, r2, r3, fmt, kind, ref, rfl, hrep, hf, hk, hnew, href⟩
      · simp [open_wrong_length_eq vm g iscapture device_id spec w xs hw hrep hlen] at hok

/-- The statics and the caller's format after a call of Open for output that returns
0: the buffer held has the element type of the negotiated encoding and
`samples * channels` elements, the stored format is a recognised wire encoding of
that element type, and the pinned pointer is what the pin call returned. -/
theorem open_output_state (vm : JavaVM) (g : AudioGlobals) (device_id : Int)
    (spec : SDL_AudioSpec)
    (hok : (Android_JNI_OpenAudioDevice vm g false device_id spec).ret = 0) :
    ∃ (kind : ElemKind) (buf : JArray),
      kindOfFormat (Android_JNI_OpenAudioDevice vm g false device_id spec).spec.format
          = some kind
        ∧ (Android_JNI_OpenAudioDevice vm g false device_id spec).globals.audioBuffer
            = some buf
        ∧ buf.kind = kind
        ∧ buf.length = (Android_JNI_OpenAudioDevice vm g false device_id spec).spec.samples
            * (Android_JNI_OpenAudioDevice vm g false device_id spec).spec.channels
        ∧ kindOfWire
            (Android_JNI_OpenAudioDevice vm g false device_id spec).globals.audioBufferFormat
            = some kind
        ∧ (Android_JNI_OpenAudioDevice vm g false device_id spec).globals.audioBufferPinned
            = vm.getArrayElements buf := by
  obtain ⟨w, r0, r1, r2, r3, fmt, kind, ref, hw, hrep, hf, hk, hnew, href⟩ :=
    open_ret_zero_inv vm g false device_id spec hok
  rw [open_success_eq vm g false device_id spec w r0 r1 r2 r3 fmt kind ref hw hrep hf hk hnew
    href]
  refine ⟨kind, ⟨ref, kind, r3 * r2⟩, ?_, ?_, rfl, ?_, ?_, ?_⟩
  · simpa using (kindOfWire_formatOfWire r1 fmt hf).symm.trans hk
  · simp
  · simp
  · simpa using hk
  · simp

/-- Commit assigns no static, so any number of commits in a row leaves them as they
were. -/
theorem commitTimes_eq (k : Nat) (g : AudioGlobals) : commitTimes k g = g := by
  induction k with
  | zero => rfl
  | succ k ih =>
    have h : (Android_JNI_WriteAudioBuffer g).1 = g := by
      unfold Android_JNI_WriteAudioBuffer
      split <;> rfl
    simp [commitTimes, h, ih]

theorem size_of_kindOfFormat (f : SDL_AudioFormat) (kind : ElemKind)
    (h : kindOfFormat f = some kind) : kind.size = elementSize f := by
  cases f <;> simp [kindOfFormat] at h <;> subst h <;> rfl

/-! ## Open: the claims -/

/-- C1: for every direction, device id and requested format whose encoding is U8, S16
or F32, Open against a service that echoes the four request values back, with buffer
allocation succeeding, returns 0 with no error and leaves the caller's format equal
to the requested one; in particular decoding the wire encoding of the requested
encoding gives that encoding back. -/
theorem open_echo_keeps_format (vm : JavaVM) (g : AudioGlobals) (iscapture : Bool)
    (device_id : Int) (spec : SDL_AudioSpec)
    (hfmt : spec.format = .AUDIO_U8 ∨ spec.format = .AUDIO_S16 ∨ spec.format = .AUDIO_F32)
    (hecho : Echoes vm) (halloc : AllocSucceeds vm) :
    let r := Android_JNI_OpenAudioDevice vm g iscapture device_id spec
    r.ret = 0 ∧ r.error = none ∧ r.spec = spec
      ∧ r.spec.freq = spec.freq ∧ r.spec.format = spec.format
      ∧ r.spec.channels = spec.channels ∧ r.spec.samples = spec.samples
      ∧ (wireOfFormat spec.format).bind formatOfWire = some spec.format := by
  intro r
  obtain ⟨w, hw⟩ := wireOfFormat_isSome spec.format hfmt
  have hdec := formatOfWire_wireOfFormat spec.format w hw
  have hk := kindOfWire_wireOfFormat spec.format w hw
  obtain ⟨kind, hkind⟩ : ∃ k, kindOfFormat spec.format = some k := by
    rcases hfmt with h | h | h <;> rw [h] <;> exact ⟨_, rfl⟩
  rw [hkind] at hk
  obtain ⟨hnew, hsome⟩ := halloc kind (spec.samples * spec.channels)
  obtain ⟨ref, href⟩ := Option.isSome_iff_exists.mp hsome
  have hr : r.ret = 0 ∧ r.error = none ∧ r.spec = spec := by
    have h := open_success_eq vm g iscapture device_id spec w spec.freq w spec.channels
      spec.samples spec.format kind ref hw (hecho ..) hdec hk hnew href
    have hr : r = _ := h
    rw [hr]
    cases iscapture <;> simp
  obtain ⟨h1, h2, h3⟩ := hr
  refine ⟨h1, h2, h3, ?_, ?_, ?_, ?_, ?_⟩
  · rw [h3]
  · rw [h3]
  · rw [h3]
  · rw [h3]
  · simp [hw, hdec]

/-- C2: for every direction, device id and requested format whose encoding is none of
U8, S16, F32, Open fails (returns -1) with UnsupportedFormat, makes no call at all
(the trace is empty), and leaves the caller's format and the statics unchanged. -/
theorem open_unsupported_no_calls (vm : JavaVM) (g : AudioGlobals) (iscapture : Bool)
    (device_id : Int) (spec : SDL_AudioSpec)
    (hfmt : spec.format ≠ .AUDIO_U8 ∧ spec.format ≠ .AUDIO_S16 ∧ spec.format ≠ .AUDIO_F32) :
    let r := Android_JNI_OpenAudioDevice vm g iscapture device_id spec
    r.ret = -1 ∧ r.error.map SDL_Error.kind = some .UnsupportedFormat
      ∧ r.events = [] ∧ r.spec = spec ∧ r.globals = g := by
  intro r
  have hw : wireOfFormat spec.format = none := by
    obtain ⟨h1, h2, h3⟩ := hfmt
    cases hf : spec.format with
    | AUDIO_U8 => exact absurd hf h1
    | AUDIO_S16 => exact absurd hf h2
    | AUDIO_F32 => exact absurd hf h3
    | other c => rfl
  have hr : r = ⟨-1, some (.unsupportedAudioFormat spec.format), spec, g, []⟩ := by
    show Android_JNI_OpenAudioDevice vm g iscapture device_id spec = _
    simp [Android_JNI_OpenAudioDevice, hw]
  rw [hr]
  simp [SDL_Error.kind]

/-- C3: for every request with a supported encoding and every reply [r0, r1, r2, r3]
of the service with r1 in {3, 2, 4}, when buffer allocation succeeds Open returns 0
with no error and the caller's format is exactly sample rate r0, encoding U8 if
r1 = 3, S16 if r1 = 2, F32 if r1 = 4, channels r2 and frames per buffer r3,
whatever was requested. -/
theorem open_returns_service_format (vm : JavaVM) (g : AudioGlobals) (iscapture : Bool)
    (device_id : Int) (spec : SDL_AudioSpec) (w r0 r1 r2 r3 : Int)
    (hsup : wireOfFormat spec.format = some w)
    (hreply : vm.openReply iscapture spec.freq w spec.channels spec.samples device_id
      = some [r0, r1, r2, r3])
    (hr1 : r1 = 3 ∨ r1 = 2 ∨ r1 = 4)
    (halloc : AllocSucceeds vm) :
    let r := Android_JNI_OpenAudioDevice vm g iscapture device_id spec
    r.ret = 0 ∧ r.error = none
      ∧ r.spec = { freq := r0,
                   format := if r1 = 3 then .AUDIO_U8 else if r1 = 2 then .AUDIO_S16
                             else .AUDIO_F32,
                   channels := r2, samples := r3 } := by
  intro r
  obtain ⟨fmt, kind, hf, hk, hfe⟩ : ∃ fmt kind, formatOfWire r1 = some fmt
      ∧ kindOfWire r1 = some kind
      ∧ fmt = (if r1 = 3 then SDL_AudioFormat.AUDIO_U8 else if r1 = 2 then .AUDIO_S16
               else .AUDIO_F32) := by
    rcases hr1 with h | h | h <;> subst h <;>
      simp [formatOfWire, kindOfWire, ENCODING_PCM_8BIT, ENCODING_PCM_16BIT,
        ENCODING_PCM_FLOAT]
  obtain ⟨hnew, hsome⟩ := halloc kind (r3 * r2)
  obtain ⟨ref, href⟩ := Option.isSome_iff_exists.mp hsome
  have h := open_success_eq vm g iscapture device_id spec w r0 r1 r2 r3 fmt kind ref hsup
    hreply hf hk hnew href
  have hr : r = _ := h
  rw [hr, ← hfe]
  cases iscapture <;> simp

/-- C4: for every request with a supported encoding, the failure of Open is decided by
the reply of the service: the error is ServiceInitFailed exactly when the service
returns no result, and ProtocolMismatch exactly when a result is returned that does
not carry exactly four values or whose second value is none of 3, 2, 4; in both cases
Open returns -1, the open call is the only call made (no buffer is allocated, no
reference is made) and the statics are unchanged. -/
theorem open_failure_by_reply (vm : JavaVM) (g : AudioGlobals) (iscapture : Bool)
    (device_id : Int) (spec : SDL_AudioSpec) (w : Int)
    (hsup : wireOfFormat spec.format = some w) :
    let reply := vm.openReply iscapture spec.freq w spec.channels spec.samples device_id
    let r := Android_JNI_OpenAudioDevice vm g iscapture device_id spec
    (r.error.map SDL_Error.kind = some .ServiceInitFailed ↔ reply = none)
      ∧ (r.error.map SDL_Error.kind = some .ProtocolMismatch ↔
          ∃ xs, reply = some xs
            ∧ (xs.length ≠ 4 ∨ (xs[1]? ≠ some 3 ∧ xs[1]? ≠ some 2 ∧ xs[1]? ≠ some 4)))
      ∧ (r.error.map SDL_Error.kind = some .ServiceInitFailed
          ∨ r.error.map SDL_Error.kind = some .ProtocolMismatch →
          r.ret = -1 ∧ r.globals = g
            ∧ r.events = [openEvent iscapture spec.freq w spec.channels spec.samples device_id])
    := by
  intro reply r
  cases hrep : vm.openReply iscapture spec.freq w spec.channels spec.samples device_id with
  | none =>
    have hr : r = _ := open_no_result_eq vm g iscapture device_id spec w hsup hrep
    have hreply : reply = none := hrep
    rw [hr, hreply]
    simp [SDL_Error.kind]
  | some xs =>
    have hreply : reply = some xs := hrep
    by_cases hlen : xs.length = 4
    · obtain ⟨a, b, c, d, rfl⟩ := list_length_four xs hlen
      cases hf : formatOfWire b with
      | none =>
        have hr : r = _ := open_unrecognised_eq vm g iscapture device_id spec w a b c d hsup
          hrep hf
        have hb := (formatOfWire_eq_none_iff b).mp hf
        rw [hr, hreply]
        simp [SDL_Error.kind, hb]
      | some fmt =>
        have herr : r.error = none ∨ r.error = some .outOfMemory :=
          open_recognised_error vm g iscapture device_id spec w a b c d fmt hsup hrep hf
        have hb : ¬ (b ≠ 3 ∧ b ≠ 2 ∧ b ≠ 4) := by
          intro hb
          rw [(formatOfWire_eq_none_iff b).mpr hb] at hf
          exact absurd hf (by simp)
        rw [hreply]
        rcases herr with he | he <;> rw [he] <;> simp [SDL_Error.kind] <;> tauto
    · have hr : r = _ := open_wrong_length_eq vm g iscapture device_id spec w xs hsup hrep hlen
      rw [hr, hreply]
      simp [SDL_Error.kind, hlen]

/-! ## Open: instances -/

/-- Instance of C1 at the spec's scenario: output, device 2, 44100 Hz S16 stereo with
1024 frames, against the echoing service. -/
theorem open_echo_keeps_format_witness :
    Echoes (echoVM 0) ∧ AllocSucceeds (echoVM 0)
      ∧ (Android_JNI_OpenAudioDevice (echoVM 0) .initial false 2 scenarioSpec).ret = 0
      ∧ (Android_JNI_OpenAudioDevice (echoVM 0) .initial false 2 scenarioSpec).spec
          = scenarioSpec :=
  ⟨echoVM_echoes 0, echoVM_alloc 0,
    (open_echo_keeps_format (echoVM 0) .initial false 2 scenarioSpec (Or.inr (Or.inl rfl))
      (echoVM_echoes 0) (echoVM_alloc 0)).1,
    (open_echo_keeps_format (echoVM 0) .initial false 2 scenarioSpec (Or.inr (Or.inl rfl))
      (echoVM_echoes 0) (echoVM_alloc 0)).2.2.1⟩

/-- Instance of C2: a request for signed 8-bit samples (format code 0x8008). -/
theorem open_unsupported_no_calls_witness :
    (Android_JNI_OpenAudioDevice (echoVM 0) .initial true 5 ⟨44100, .other 0x8008, 2, 1024⟩).ret
        = -1
      ∧ (Android_JNI_OpenAudioDevice (echoVM 0) .initial true 5
          ⟨44100, .other 0x8008, 2, 1024⟩).events = [] :=
  ⟨(open_unsupported_no_calls (echoVM 0) .initial true 5 ⟨44100, .other 0x8008, 2, 1024⟩
      ⟨by decide, by decide, by decide⟩).1,
    (open_unsupported_no_calls (echoVM 0) .initial true 5 ⟨44100, .other 0x8008, 2, 1024⟩
      ⟨by decide, by decide, by decide⟩).2.2.1⟩

/-- Instance of C3: the scenario's request answered with 48000 Hz, float, mono, 512
frames. -/
theorem open_returns_service_format_witness :
    (Android_JNI_OpenAudioDevice (fixedVM (some [48000, 4, 1, 512]) true (some 7) 4096 0)
        .initial false 2 scenarioSpec).spec = ⟨48000, .AUDIO_F32, 1, 512⟩ :=
  (open_returns_service_format (fixedVM (some [48000, 4, 1, 512]) true (some 7) 4096 0)
    .initial false 2 scenarioSpec 2 48000 4 1 512 rfl rfl (Or.inr (Or.inr rfl))
    (fun _ _ => ⟨rfl, rfl⟩)).2.2

/-- Instance of C4: the scenario's request answered with no result. -/
theorem open_failure_by_reply_witness :
    wireOfFormat scenarioSpec.format = some 2
      ∧ (Android_JNI_OpenAudioDevice (fixedVM none true (some 7) 4096 0) .initial false 2
          scenarioSpec).error.map SDL_Error.kind = some .ServiceInitFailed :=
  ⟨rfl, (open_failure_by_reply (fixedVM none true (some 7) 4096 0) .initial false 2
    scenarioSpec 2 rfl).1.mpr rfl⟩

/-! ## Write pointer, close, commit -/

/-- C5, as stated, fails: the scenario's Open for output returns 0 although the pin
call `GetShortArrayElements` returned NULL, and `Android_JNI_GetAudioBuffer` then
returns NULL. -/
theorem getAudioBuffer_null_after_open :
    (Android_JNI_OpenAudioDevice pinFailsVM .initial false 2 scenarioSpec).ret = 0
      ∧ (Android_JNI_OpenAudioDevice pinFailsVM .initial false 2 scenarioSpec).error = none
      ∧ Android_JNI_GetAudioBuffer
          (Android_JNI_OpenAudioDevice pinFailsVM .initial false 2 scenarioSpec).globals = 0 := by
  decide

/-- C5, amended: after every call of Open for output that returns 0, with negotiated
format (encoding, channels, frames per buffer), `Android_JNI_GetAudioBuffer` returns
the pointer the pin call `Get<T>ArrayElements` gave for the session's buffer, which is
non-null exactly when that call did not fail, and that buffer has
frames * channels elements of the negotiated encoding, that is
frames * channels * elementSize(encoding) bytes with elementSize 1, 2, 4 for U8,
S16, F32. -/
theorem getAudioBuffer_after_open (vm : JavaVM) (g : AudioGlobals) (device_id : Int)
    (spec : SDL_AudioSpec)
    (hok : (Android_JNI_OpenAudioDevice vm g false device_id spec).ret = 0) :
    let r := Android_JNI_OpenAudioDevice vm g false device_id spec
    ∃ (kind : ElemKind) (buf : JArray),
      r.globals.audioBuffer = some buf
        ∧ kindOfFormat r.spec.format = some kind ∧ buf.kind = kind
        ∧ buf.length = r.spec.samples * r.spec.channels
        ∧ buf.byteSize = r.spec.samples * r.spec.channels * elementSize r.spec.format
        ∧ Android_JNI_GetAudioBuffer r.globals = vm.getArrayElements buf
        ∧ (Android_JNI_GetAudioBuffer r.globals ≠ 0 ↔ vm.getArrayElements buf ≠ 0) := by
  intro r
  obtain ⟨kind, buf, hk, hb, hbk, hlen, -, hpin⟩ := open_output_state vm g device_id spec hok
  refine ⟨kind, buf, hb, hk, hbk, hlen, ?_, hpin, ?_⟩
  · have hs := size_of_kindOfFormat _ kind hk
    unfold JArray.byteSize
    rw [hbk, hs, hlen]
  · have : Android_JNI_GetAudioBuffer r.globals = vm.getArrayElements buf := hpin
    rw [this]

/-- Instance of C5 (amended) at the spec's scenario with the echoing service, whose pin
call returns address 4096: the write pointer is 4096 and the buffer has 4096 bytes. -/
theorem getAudioBuffer_after_open_witness :
    (Android_JNI_OpenAudioDevice (echoVM 0) .initial false 2 scenarioSpec).ret = 0
      ∧ ∃ buf : JArray,
          (Android_JNI_OpenAudioDevice (echoVM 0) .initial false 2 scenarioSpec).globals.audioBuffer
              = some buf
            ∧ buf.byteSize = 4096
            ∧ Android_JNI_GetAudioBuffer
                (Android_JNI_OpenAudioDevice (echoVM 0) .initial false 2 scenarioSpec).globals
                = 4096 := by
  refine ⟨by decide, ?_⟩
  obtain ⟨kind, buf, hb, -, -, -, hsize, hptr, -⟩ :=
    getAudioBuffer_after_open (echoVM 0) .initial 2 scenarioSpec (by decide)
  exact ⟨buf, hb, hsize.trans (by decide), hptr⟩

/-- C6: for each direction and from every state of the statics, two calls of Close in
a row (the function returns nothing, so neither can fail): each call makes exactly
one close call, of that direction; the first releases the reference of the
direction if one is held, and then the reference is NULL and, for output, so is the
pinned pointer; the second makes the close call only, releases nothing, and leaves
the statics as the first call left them. -/
theorem close_twice (g : AudioGlobals) (iscapture : Bool) :
    let c1 := Android_JNI_CloseAudioDevice g iscapture
    let c2 := Android_JNI_CloseAudioDevice c1.1 iscapture
    c1.2 = closeEvent iscapture :: (g.buffer iscapture).toList.map Event.DeleteGlobalRef
      ∧ c1.2.filter Event.isClose = [closeEvent iscapture]
      ∧ c1.2.filter Event.isRelease = (g.buffer iscapture).toList.map Event.DeleteGlobalRef
      ∧ c1.1.buffer iscapture = none
      ∧ (iscapture = false → (g.buffer iscapture).isSome → c1.1.audioBufferPinned = 0)
      ∧ c2.2 = [closeEvent iscapture]
      ∧ c2.2.filter Event.isClose = [closeEvent iscapture]
      ∧ c2.2.filter Event.isRelease = []
      ∧ c2.1 = c1.1 := by
  intro c1 c2
  cases iscapture with
  | true =>
    cases hb : g.captureBuffer with
    | none =>
      have h1 : c1 = (g, [.captureClose]) := by
        simp [c1, Android_JNI_CloseAudioDevice, hb]
      have h2 : c2 = (g, [.captureClose]) := by
        simp [c2, h1, Android_JNI_CloseAudioDevice, hb]
      rw [h2, h1]
      simp [closeEvent, AudioGlobals.buffer, hb, Event.isClose, Event.isRelease]
    | some b =>
      have h1 : c1 = ({ g with captureBuffer := none }, [.captureClose, .DeleteGlobalRef b]) := by
        simp [c1, Android_JNI_CloseAudioDevice, hb]
      have h2 : c2 = ({ g with captureBuffer := none }, [.captureClose]) := by
        simp [c2, h1, Android_JNI_CloseAudioDevice]
      rw [h2, h1]
      simp [closeEvent, AudioGlobals.buffer, hb, Event.isClose, Event.isRelease]
  | false =>
    cases hb : g.audioBuffer with
    | none =>
      have h1 : c1 = (g, [.audioClose]) := by
        simp [c1, Android_JNI_CloseAudioDevice, hb]
      have h2 : c2 = (g, [.audioClose]) := by
        simp [c2, h1, Android_JNI_CloseAudioDevice, hb]
      rw [h2, h1]
      simp [closeEvent, AudioGlobals.buffer, hb, Event.isClose, Event.isRelease]
    | some b =>
      have h1 : c1 = ({ g with audioBuffer := none, audioBufferPinned := 0 },
          [.audioClose, .DeleteGlobalRef b]) := by
        simp [c1, Android_JNI_CloseAudioDevice, hb]
      have h2 : c2 = ({ g with audioBuffer := none, audioBufferPinned := 0 },
          [.audioClose]) := by
        simp [c2, h1, Android_JNI_CloseAudioDevice]
      rw [h2, h1]
      simp [closeEvent, AudioGlobals.buffer, hb, Event.isClose, Event.isRelease]

/-- C7: after a call of Open for output that returns 0, with negotiated encoding e,
channels c and frames per buffer n, every Commit (the one after any number k of
earlier commits) makes exactly one write call, of the variant of e (byte for U8,
short for S16, float for F32), carrying the session's buffer of n * c elements, and
leaves the statics, so the buffer reference and the pinned pointer, unchanged. -/
theorem commit_one_write (vm : JavaVM) (g : AudioGlobals) (device_id : Int)
    (spec : SDL_AudioSpec) (k : Nat)
    (hok : (Android_JNI_OpenAudioDevice vm g false device_id spec).ret = 0) :
    let r := Android_JNI_OpenAudioDevice vm g false device_id spec
    let c := Android_JNI_WriteAudioBuffer (commitTimes k r.globals)
    ∃ (kind : ElemKind) (buf : JArray),
      kindOfFormat r.spec.format = some kind
        ∧ r.globals.audioBuffer = some buf ∧ buf.kind = kind
        ∧ buf.length = r.spec.samples * r.spec.channels
        ∧ c.2.filter Event.isWrite = [.audioWriteBuffer kind (some buf)]
        ∧ c.2 = [.ReleaseArrayElements kind (some buf) r.globals.audioBufferPinned .JNI_COMMIT,
                 .audioWriteBuffer kind (some buf)]
        ∧ c.1 = r.globals
        ∧ c.1.audioBuffer = r.globals.audioBuffer
        ∧ c.1.audioBufferPinned = r.globals.audioBufferPinned := by
  intro r c
  obtain ⟨kind, buf, hk, hb, hbk, hlen, hw, -⟩ := open_output_state vm g device_id spec hok
  have hc : c = (r.globals, [.ReleaseArrayElements kind (some buf) r.globals.audioBufferPinned
      .JNI_COMMIT, .audioWriteBuffer kind (some buf)]) := by
    have hw2 : kindOfWire r.globals.audioBufferFormat = some kind := hw
    have hb2 : r.globals.audioBuffer = some buf := hb
    simp [c, commitTimes_eq, Android_JNI_WriteAudioBuffer, hw2, hb2]
  rw [hc]
  exact ⟨kind, buf, hk, hb, hbk, hlen, by simp [Event.isWrite], rfl, rfl, rfl, rfl⟩

/-- Instance of C7 at the spec's scenario (S16, 2 channels, 1024 frames): the fourth
commit after Open makes exactly one write call, the short one, with a buffer of 2048
elements. -/
theorem commit_one_write_witness :
    (Android_JNI_OpenAudioDevice (echoVM 0) .initial false 2 scenarioSpec).ret = 0
      ∧ ∃ buf : JArray, buf.length = 2048
          ∧ (Android_JNI_WriteAudioBuffer (commitTimes 3
              (Android_JNI_OpenAudioDevice (echoVM 0) .initial false 2
                scenarioSpec).globals)).2.filter Event.isWrite
            = [.audioWriteBuffer .short (some buf)] := by
  refine ⟨by decide, ?_⟩
  obtain ⟨kind, buf, hk, -, -, hlen, hw, -⟩ :=
    commit_one_write (echoVM 0) .initial 2 scenarioSpec 3 (by decide)
  have hkind : kind = .short := by
    have h : kindOfFormat scenarioSpec.format = some kind := hk
    simpa [scenarioSpec, kindOfFormat] using h.symm
  subst hkind
  exact ⟨buf, hlen.trans (by decide), hw⟩

/-! ## Capture read -/

/-- The wire encodings the variant `switch` does not recognise. -/
theorem kindOfWire_eq_none_iff (w : Int) :
    kindOfWire w = none ↔ w ≠ 3 ∧ w ≠ 2 ∧ w ≠ 4 := by
  unfold kindOfWire ENCODING_PCM_8BIT ENCODING_PCM_16BIT ENCODING_PCM_FLOAT
  split_ifs <;> simp_all

/-- Read on a recognised capture format with a buffer held, written out: the
assertion, one blocking read call, and for a positive count the copy of the scaled
count converted to `size_t`. -/
theorem capture_read_eq (ptrBits : Nat) (vm : JavaVM) (g : AudioGlobals) (buflen : Int)
    (kind : ElemKind) (buf : JArray)
    (hk : kindOfWire g.captureBufferFormat = some kind)
    (hbuf : g.captureBuffer = some buf) :
    Android_JNI_CaptureAudioBuffer ptrBits vm g buflen =
      if 0 < vm.captureRead (some buf) true then
        some (scaledCount kind (vm.captureRead (some buf) true),
          [.SDL_assert (captureAssert ptrBits kind buf.length buflen),
           .captureReadBuffer kind (some buf) true,
           .GetArrayElements kind buf,
           .SDL_memcpy (toSizeT ptrBits (scaledCount kind (vm.captureRead (some buf) true))),
           .ReleaseArrayElements kind (some buf) (vm.getArrayElements buf) .JNI_ABORT])
      else
        some (vm.captureRead (some buf) true,
          [.SDL_assert (captureAssert ptrBits kind buf.length buflen),
           .captureReadBuffer kind (some buf) true]) := by
  simp [Android_JNI_CaptureAudioBuffer, hk, hbuf]

/-- A positive count of at most `buflen / size` elements, for a `buflen` that fits an
`int`, scales without wrapping, to a positive number of at most `buflen` bytes. -/
theorem scaledCount_le (kind : ElemKind) (br buflen : Int) (hpos : 0 < br)
    (hhi : buflen < 2 ^ 31) (hcount : br ≤ buflen / kind.size) :
    scaledCount kind br = br * kind.size ∧ 0 < scaledCount kind br
      ∧ scaledCount kind br ≤ buflen := by
  cases kind with
  | byte =>
    have h : br ≤ buflen / 1 := hcount
    simp only [scaledCount, ElemKind.size]
    omega
  | short =>
    have h : br ≤ buflen / 2 := hcount
    simp only [scaledCount, toJint, ElemKind.size]
    omega
  | float =>
    have h : br ≤ buflen / 4 := hcount
    simp only [scaledCount, toJint, ElemKind.size]
    omega

/-- C8, as stated, fails: after Open for capture negotiated U8 with a buffer of 4
bytes, Read with maxBytes 4 against a service whose read call returns 10 makes one
blocking byte read call, copies 10 bytes and returns 10. -/
theorem capture_read_exceeds_maxBytes :
    (Android_JNI_OpenAudioDevice (echoVM 10) .initial true 2 smallCaptureSpec).ret = 0
      ∧ Android_JNI_CaptureAudioBuffer 64 (echoVM 10)
          (Android_JNI_OpenAudioDevice (echoVM 10) .initial true 2 smallCaptureSpec).globals 4
        = some (10,
            [.SDL_assert true,
             .captureReadBuffer .byte (some ⟨7, .byte, 4⟩) true,
             .GetArrayElements .byte ⟨7, .byte, 4⟩,
             .SDL_memcpy 10,
             .ReleaseArrayElements .byte (some ⟨7, .byte, 4⟩) 4096 .JNI_ABORT])
      ∧ ¬ ((10 : Int) ≤ 4) := by
  decide

/-- A non-negative number below `2^31` is its own conversion to a `size_t` of at
least 32 bits. -/
theorem toSizeT_of_small (ptrBits : Nat) (hbits : 32 ≤ ptrBits) (x : Int)
    (hlo : 0 ≤ x) (hhi : x < 2 ^ 31) : toSizeT ptrBits x = x := by
  have hpow : (2 : Int) ^ 32 ≤ 2 ^ ptrBits := pow_le_pow_right₀ (by norm_num) hbits
  exact Int.emod_eq_of_lt hlo (by omega)

/-- Read at a count for which `br *= sizeof(Sint16)` wraps: with 2^30 shorts read,
the returned `br` is -2^31 and `SDL_memcpy` is asked for 2^64 - 2^31 bytes. -/
theorem capture_read_wraps :
    Android_JNI_CaptureAudioBuffer 64 (echoVM 1073741824)
        { AudioGlobals.initial with captureBufferFormat := 2,
                                    captureBuffer := some ⟨7, .short, 1073741824⟩ }
        2147483647
      = some (-2147483648,
          [.SDL_assert false,
           .captureReadBuffer .short (some ⟨7, .short, 1073741824⟩) true,
           .GetArrayElements .short ⟨7, .short, 1073741824⟩,
           .SDL_memcpy 18446744071562067968,
           .ReleaseArrayElements .short (some ⟨7, .short, 1073741824⟩) 4096 .JNI_ABORT]) := by
  decide

/-- C8, amended: for every recognised capture encoding with a capture buffer held,
every maxBytes that is non-negative and fits an `int`, and every count returned by
the read call of the service, on a platform whose `size_t` has at least 32 bits, Read
makes exactly one read call, a blocking one of the variant of the encoding, and then
makes no copy (and returns the count) when the count is not positive and exactly one
copy when it is; when the count is at most maxBytes / elementSize (the element count
the assertion expects of the buffer), the number of bytes copied is the number
returned, count * elementSize for a positive count, and it does not exceed maxBytes.
For a larger count nothing is said of the number copied or returned. -/
theorem capture_read_within_maxBytes (ptrBits : Nat) (vm : JavaVM) (g : AudioGlobals)
    (buflen : Int) (kind : ElemKind) (buf : JArray)
    (hbits : 32 ≤ ptrBits)
    (hk : kindOfWire g.captureBufferFormat = some kind)
    (hbuf : g.captureBuffer = some buf)
    (hlo : 0 ≤ buflen) (hhi : buflen < 2 ^ 31) :
    ∃ (ret : Int) (events : List Event),
      Android_JNI_CaptureAudioBuffer ptrBits vm g buflen = some (ret, events)
        ∧ events.filter Event.isRead = [.captureReadBuffer kind (some buf) true]
        ∧ (vm.captureRead (some buf) true ≤ 0 →
            ret = vm.captureRead (some buf) true ∧ events.filter Event.isCopy = [])
        ∧ (0 < vm.captureRead (some buf) true →
            ∃ n, events.filter Event.isCopy = [.SDL_memcpy n])
        ∧ (vm.captureRead (some buf) true ≤ buflen / kind.size →
            ret ≤ buflen
              ∧ (0 < vm.captureRead (some buf) true →
                  ret = vm.captureRead (some buf) true * kind.size
                    ∧ events.filter Event.isCopy = [.SDL_memcpy ret])
              ∧ ∀ n, Event.SDL_memcpy n ∈ events → n = ret ∧ 0 < n ∧ n ≤ buflen) := by
  rw [capture_read_eq ptrBits vm g buflen kind buf hk hbuf]
  by_cases hpos : 0 < vm.captureRead (some buf) true
  · rw [if_pos hpos]
    refine ⟨_, _, rfl, by simp [Event.isRead], ?_, ?_, ?_⟩
    · intro hneg
      omega
    · intro _
      exact ⟨toSizeT ptrBits (scaledCount kind (vm.captureRead (some buf) true)),
        by simp [Event.isCopy]⟩
    · intro hcount
      obtain ⟨heq, hgt, hle⟩ := scaledCount_le kind _ buflen hpos hhi hcount
      have hsz := toSizeT_of_small ptrBits hbits _ (le_of_lt hgt) (lt_of_le_of_lt hle hhi)
      refine ⟨hle, fun _ => ⟨heq, by simp [Event.isCopy, hsz]⟩, ?_⟩
      intro n hn
      simp at hn
      rw [hn, hsz]
      exact ⟨rfl, hgt, hle⟩
  · rw [if_neg hpos]
    refine ⟨_, _, rfl, by simp [Event.isRead], ?_, ?_, ?_⟩
    · intro _
      exact ⟨rfl, by simp [Event.isCopy]⟩
    · intro h
      exact absurd h hpos
    · intro _
      refine ⟨by omega, fun h => absurd h hpos, ?_⟩
      intro n hn
      simp at hn

/-- Instance of C8 (amended): the U8 capture session with a buffer of 4 bytes, maxBytes
4 and a read call that returns 3. -/
theorem capture_read_within_maxBytes_witness :
    ∃ (ret : Int) (events : List Event),
      Android_JNI_CaptureAudioBuffer 64 (echoVM 3)
          (Android_JNI_OpenAudioDevice (echoVM 3) .initial true 2 smallCaptureSpec).globals 4
          = some (ret, events)
        ∧ events.filter Event.isRead = [.captureReadBuffer .byte (some ⟨7, .byte, 4⟩) true]
        ∧ ret ≤ 4
        ∧ events.filter Event.isCopy = [.SDL_memcpy ret] := by
  obtain ⟨ret, events, h1, h2, -, -, h3⟩ := capture_read_within_maxBytes 64 (echoVM 3)
    (Android_JNI_OpenAudioDevice (echoVM 3) .initial true 2 smallCaptureSpec).globals 4
    .byte ⟨7, .byte, 4⟩ (by decide) (by decide) (by decide) (by decide) (by decide)
  exact ⟨ret, events, h1, h2, (h3 (by decide)).1, ((h3 (by decide)).2.1 (by decide)).2⟩

/-- C9, as stated, fails: with the capture format at its initial value 0, which is
none of 3, 2, 4, Read returns -1, not 0 (and makes no call). -/
theorem capture_read_unrecognised_returns_minus_one :
    Android_JNI_CaptureAudioBuffer 64 (echoVM 0) .initial 4096 = some (-1, [])
      ∧ (-1 : Int) ≠ 0 := by
  decide

/-- C9, amended: when the stored capture encoding is none of the wire encodings 3, 2,
4, Read returns -1 (the value `br` starts with) for every maxBytes, and its trace is
empty: no read call is made and nothing is copied. -/
theorem capture_read_unrecognised (ptrBits : Nat) (vm : JavaVM) (g : AudioGlobals)
    (buflen : Int)
    (h : g.captureBufferFormat ≠ 3 ∧ g.captureBufferFormat ≠ 2 ∧ g.captureBufferFormat ≠ 4) :
    Android_JNI_CaptureAudioBuffer ptrBits vm g buflen = some (-1, []) := by
  have hk := (kindOfWire_eq_none_iff g.captureBufferFormat).mpr h
  simp [Android_JNI_CaptureAudioBuffer, hk]

/-- Instance of C9 (amended): a stored capture encoding 7 with a buffer held. -/
theorem capture_read_unrecognised_witness :
    Android_JNI_CaptureAudioBuffer 32 (echoVM 5)
        { AudioGlobals.initial with captureBufferFormat := 7,
                                    captureBuffer := some ⟨7, .byte, 4⟩ } 4
      = some (-1, []) :=
  capture_read_unrecognised 32 (echoVM 5) _ 4 ⟨by decide, by decide, by decide⟩

/-! ## Device enumeration -/

/-- Reading the first positions of an array back, one index at a time, gives the
elements that were copied into them. -/
theorem map_range_getD_append {β : Type} (l d : List Int) (f : Int → β) :
    (List.range l.length).map (fun i => f ((l ++ d).getD i 0)) = l.map f := by
  apply List.ext_getElem
  · simp
  · intro i h1 h2
    simp at h1
    simp [List.getD_eq_getElem?_getD, List.getElem?_append_left h1,
      List.getElem?_eq_getElem h1]

theorem toNat_min_hundred (n : Nat) : (min (n : Int) 100).toNat = min 100 n := by
  omega

theorem take_min_hundred (ids : List Int) : ids.take (min 100 ids.length) = ids.take 100 := by
  simp [List.take_eq_take]

/-- The registration loop over an array of 100 zeros that received the first
`min n 100` of the `n` reported ids registers the first 100 reported ids, in
order. -/
theorem addDevices_region (ptrBits : Nat) (iscapture : Bool) (ids : List Int) :
    addDevices ptrBits iscapture
        (GetIntArrayRegion ids (min (ids.length : Int) 100) (List.replicate 100 0))
        (min (ids.length : Int) 100)
      = (ids.take 100).map (registration ptrBits iscapture) := by
  unfold addDevices GetIntArrayRegion
  rw [toNat_min_hundred, take_min_hundred]
  have hlen : min 100 ids.length = (ids.take 100).length := by simp
  rw [hlen]
  exact map_range_getD_append (ids.take 100) _ (registration ptrBits iscapture)

/-- The trace of `Android_DetectDevices`: the query and the registrations of the first
100 reported ids for input, then the same for output. -/
theorem detectDevices_eq (ptrBits : Nat) (vm : JavaVM) :
    Android_DetectDevices ptrBits vm =
      [.getAudioInputDevices]
        ++ (vm.getAudioInputDevices.take 100).map (registration ptrBits true)
        ++ [.getAudioOutputDevices]
        ++ (vm.getAudioOutputDevices.take 100).map (registration ptrBits false) := by
  simp only [Android_DetectDevices, Android_JNI_GetAudioDevices, if_true, Bool.false_eq_true,
    if_false]
  rw [addDevices_region, addDevices_region]

/-- C10: for each direction and every sequence of n device ids the service reports,
`Android_JNI_GetAudioDevices` with capacity 100 sets the length to min(n, 100) and
fills the first min(n, 100) positions of the array of 100 with the first min(n, 100)
reported ids in the service's order, the array keeping its 100 positions; and
`Android_DetectDevices` registers exactly the first 100 reported ids of each
direction, in order, so that for n = 150 exactly 100 are registered and no id from
position 100 on is. -/
theorem detect_devices_first_hundred (ptrBits : Nat) (vm : JavaVM) :
    (∀ is_input : Bool,
      let ids := if is_input then vm.getAudioInputDevices else vm.getAudioOutputDevices
      let r := Android_JNI_GetAudioDevices vm (List.replicate 100 0) 100 is_input
      r.2.1 = min (ids.length : Int) 100
        ∧ r.1.take r.2.1.toNat = ids.take (min ids.length 100)
        ∧ r.1.take r.2.1.toNat = ids.take 100
        ∧ r.1.length = 100
        ∧ (ids.length = 150 → r.2.1 = 100))
      ∧ Android_DetectDevices ptrBits vm =
          [.getAudioInputDevices]
            ++ (vm.getAudioInputDevices.take 100).map (registration ptrBits true)
            ++ [.getAudioOutputDevices]
            ++ (vm.getAudioOutputDevices.take 100).map (registration ptrBits false) := by
  constructor
  · intro is_input ids r
    have hr : r = (GetIntArrayRegion ids (min (ids.length : Int) 100) (List.replicate 100 0),
        min (ids.length : Int) 100,
        [if is_input then Event.getAudioInputDevices else Event.getAudioOutputDevices]) := rfl
    rw [hr]
    have htake : (GetIntArrayRegion ids (min (ids.length : Int) 100)
        (List.replicate 100 0)).take (min (ids.length : Int) 100).toNat = ids.take 100 := by
      unfold GetIntArrayRegion
      rw [toNat_min_hundred, take_min_hundred]
      have hlen : min 100 ids.length = (ids.take 100).length := by simp
      rw [hlen, List.take_left]
    refine ⟨rfl, ?_, htake, ?_, ?_⟩
    · rw [htake, Nat.min_comm, take_min_hundred]
    · show (GetIntArrayRegion ids (min (ids.length : Int) 100) (List.replicate 100 0)).length
        = 100
      unfold GetIntArrayRegion
      rw [toNat_min_hundred]
      simp
    · intro h
      show min (ids.length : Int) 100 = 100
      omega
  · exact detectDevices_eq ptrBits vm

/-- A run on a service that reports 150 ids per direction: both lengths are 100 and
202 calls are made, the two queries and 100 registrations per direction. -/
theorem detect_devices_150 :
    (Android_JNI_GetAudioDevices (devicesVM 150) (List.replicate 100 0) 100 true).2.1 = 100
      ∧ (Android_JNI_GetAudioDevices (devicesVM 150) (List.replicate 100 0) 100 false).2.1 = 100
      ∧ (Android_DetectDevices 64 (devicesVM 150)).length = 202 := by
  refine ⟨?_, ?_, ?_⟩
  · simp [Android_JNI_GetAudioDevices, devicesVM]
  · simp [Android_JNI_GetAudioDevices, devicesVM]
  · rw [detectDevices_eq]
    simp only [List.length_append, List.length_map, List.length_take, devicesVM,
      List.length_range, List.length_cons, List.length_nil]
    rfl

/-! ## References alive along sequences of calls -/

/-- A call of Open that does not return 0 leaves the statics as they were. -/
theorem open_failed_globals (vm : JavaVM) (g : AudioGlobals) (iscapture : Bool)
    (device_id : Int) (spec : SDL_AudioSpec)
    (hfail : (Android_JNI_OpenAudioDevice vm g iscapture device_id spec).ret ≠ 0) :
    (Android_JNI_OpenAudioDevice vm g iscapture device_id spec).globals = g := by
  cases hw : wireOfFormat spec.format with
  | none => simp [Android_JNI_OpenAudioDevice, hw]
  | some w =>
    cases hrep : vm.openReply iscapture spec.freq w spec.channels spec.samples device_id with
    | none => rw [open_no_result_eq vm g iscapture device_id spec w hw hrep]
    | some xs =>
      by_cases hlen : xs.length = 4
      · obtain ⟨r0, r1, r2, r3, rfl⟩ := list_length_four xs hlen
        cases hf : formatOfWire r1 with
        | none =>
          rw [open_unrecognised_eq vm g iscapture device_id spec w r0 r1 r2 r3 hw hrep hf]
        | some fmt =>
          obtain ⟨kind, hk⟩ := kindOfWire_isSome r1 fmt hf
          cases hnew : vm.newArray kind (r3 * r2) with
          | false => simp [Android_JNI_OpenAudioDevice, hw, hrep, hf, hk, hnew]
          | true =>
            cases href : vm.newGlobalRef kind (r3 * r2) with
            | none => simp [Android_JNI_OpenAudioDevice, hw, hrep, hf, hk, hnew, href]
            | some ref =>
              exfalso
              apply hfail
              rw [open_success_eq vm g iscapture device_id spec w r0 r1 r2 r3 fmt kind ref hw
                hrep hf hk hnew href]
              cases iscapture <;> rfl
      · rw [open_wrong_length_eq vm g iscapture device_id spec w xs hw hrep hlen]

/-- A call of Open that returns 0 holds a reference for its direction afterwards and
leaves the reference of the other direction as it was. -/
theorem open_ok_buffers (vm : JavaVM) (g : AudioGlobals) (iscapture : Bool)
    (device_id : Int) (spec : SDL_AudioSpec)
    (hok : (Android_JNI_OpenAudioDevice vm g iscapture device_id spec).ret = 0) :
    (∃ b, (Android_JNI_OpenAudioDevice vm g iscapture device_id spec).globals.buffer iscapture
        = some b)
      ∧ (Android_JNI_OpenAudioDevice vm g iscapture device_id spec).globals.buffer (!iscapture)
          = g.buffer (!iscapture) := by
  obtain ⟨w, r0, r1, r2, r3, fmt, kind, ref, hw, hrep, hf, hk, hnew, href⟩ :=
    open_ret_zero_inv vm g iscapture device_id spec hok
  rw [open_success_eq vm g iscapture device_id spec w r0 r1 r2 r3 fmt kind ref hw hrep hf hk
    hnew href]
  cases iscapture <;> simp [AudioGlobals.buffer]

/-- The references the `NewGlobalRef` calls of Open's trace made are exactly what Open
stored: a call that returns 0 made one reference, the one it holds for its direction
afterwards; a call that fails made none (it never reached `NewGlobalRef`, or the
service answered it with NULL). -/
theorem made_open (vm : JavaVM) (g : AudioGlobals) (iscapture : Bool) (device_id : Int)
    (spec : SDL_AudioSpec) :
    made vm (Android_JNI_OpenAudioDevice vm g iscapture device_id spec).events =
      if (Android_JNI_OpenAudioDevice vm g iscapture device_id spec).ret = 0 then
        ((Android_JNI_OpenAudioDevice vm g iscapture device_id spec).globals.buffer
          iscapture).toList
      else [] := by
  cases hw : wireOfFormat spec.format with
  | none => simp [Android_JNI_OpenAudioDevice, hw, made]
  | some w =>
    cases hrep : vm.openReply iscapture spec.freq w spec.channels spec.samples device_id with
    | none =>
      rw [open_no_result_eq vm g iscapture device_id spec w hw hrep]
      cases iscapture <;> simp [made, openEvent]
    | some xs =>
      by_cases hlen : xs.length = 4
      · obtain ⟨r0, r1, r2, r3, rfl⟩ := list_length_four xs hlen
        cases hf : formatOfWire r1 with
        | none =>
          rw [open_unrecognised_eq vm g iscapture device_id spec w r0 r1 r2 r3 hw hrep hf]
          cases iscapture <;> simp [made, openEvent]
        | some fmt =>
          obtain ⟨kind, hk⟩ := kindOfWire_isSome r1 fmt hf
          cases hnew : vm.newArray kind (r3 * r2) with
          | false =>
            cases iscapture <;>
              simp [Android_JNI_OpenAudioDevice, hw, hrep, hf, hk, hnew, made, openEvent]
          | true =>
            cases href : vm.newGlobalRef kind (r3 * r2) with
            | none =>
              cases iscapture <;>
                simp [Android_JNI_OpenAudioDevice, hw, hrep, hf, hk, hnew, href, made,
                  openEvent]
            | some ref =>
              rw [open_success_eq vm g iscapture device_id spec w r0 r1 r2 r3 fmt kind ref hw
                hrep hf hk hnew href]
              cases iscapture <;>
                simp [made, openEvent, href, AudioGlobals.buffer]
      · rw [open_wrong_length_eq vm g iscapture device_id spec w xs hw hrep hlen]
        cases iscapture <;> simp [made, openEvent]

theorem heldOnly_initial : HeldOnly World.initial := by
  intro iscapture
  cases iscapture <;> rfl

/-- A step that respects the session state machine keeps the references alive equal
to the references held. -/
theorem heldOnly_step (w w1 : World) (op : Op) (hinv : HeldOnly w)
    (hallowed : op.allowed w = true) (hstep : step w op = some w1) : HeldOnly w1 := by
  have hout := hinv false
  have hcap := hinv true
  simp only [World.live, AudioGlobals.buffer, if_true, Bool.false_eq_true, if_false]
    at hout hcap
  cases op with
  | openDevice vm iscapture device_id spec =>
    simp only [Op.allowed, Option.isNone_iff_eq_none] at hallowed
    simp only [step, Option.some.injEq] at hstep
    subst hstep
    have hmade := made_open vm w.globals iscapture device_id spec
    by_cases hok : (Android_JNI_OpenAudioDevice vm w.globals iscapture device_id spec).ret = 0
    · obtain ⟨⟨b, hb⟩, hother⟩ := open_ok_buffers vm w.globals iscapture device_id spec hok
      rw [if_pos hok] at hmade
      intro d
      cases iscapture <;> cases d <;>
        simp_all [World.live, World.setLive, AudioGlobals.buffer]
    · have hg := open_failed_globals vm w.globals iscapture device_id spec hok
      rw [if_neg hok] at hmade
      intro d
      cases iscapture <;> cases d <;>
        simp_all [World.live, World.setLive, AudioGlobals.buffer]
  | closeDevice iscapture =>
    simp only [step, Option.some.injEq] at hstep
    subst hstep
    intro d
    cases iscapture <;> cases d <;>
      simp only [Android_JNI_CloseAudioDevice, World.live, World.setLive, AudioGlobals.buffer,
        if_true, Bool.false_eq_true, if_false, hout, hcap] <;>
      split <;> simp_all [released]
  | commit =>
    simp only [step, Option.some.injEq] at hstep
    subst hstep
    have h : (Android_JNI_WriteAudioBuffer w.globals).1 = w.globals := commitTimes_eq 1 w.globals
    intro d
    cases d <;> simp [World.live, AudioGlobals.buffer, h, hout, hcap]
  | read ptrBits vm buflen =>
    simp only [step] at hstep
    split at hstep
    · exact absurd hstep (by simp)
    · simp only [Option.some.injEq] at hstep
      subst hstep
      exact hinv
  | flush =>
    simp only [step, Option.some.injEq] at hstep
    subst hstep
    have h : (Android_JNI_FlushCapturedAudio w.globals).1 = w.globals := by
      unfold Android_JNI_FlushCapturedAudio
      split <;> rfl
    intro d
    cases d <;> simp [World.live, AudioGlobals.buffer, h, hout, hcap]

/-- Along a sequence of calls that respects the session state machine the references
alive stay equal to the references held. -/
theorem heldOnly_run (ops : List Op) (w w1 : World) (hinv : HeldOnly w)
    (hdisc : disciplined ops w = true) (hrun : run ops w = some w1) : HeldOnly w1 := by
  induction ops generalizing w with
  | nil =>
    simp only [run, Option.some.injEq] at hrun
    subst hrun
    exact hinv
  | cons op ops ih =>
    simp only [run] at hrun
    simp only [disciplined, Bool.and_eq_true] at hdisc
    cases hs : step w op with
    | none => simp [hs] at hrun
    | some w2 =>
      simp only [hs] at hrun hdisc
      exact ih w2 (heldOnly_step w w2 op hinv hdisc.1 hs) hdisc.2 hrun

/-- C11, as stated, fails: two calls of Open for output in a row, each returning 0,
are a sequence of calls from the initial state after which two references made for
output, 7 and 8, have not been released; the bridge holds only the second. -/
theorem two_references_alive_after_reopen :
    run reopenOps .initial
        = some ⟨{ audioBufferFormat := 2, audioBuffer := some ⟨8, .short, 2048⟩,
                  audioBufferPinned := 8192, captureBufferFormat := 0,
                  captureBuffer := none },
                [⟨7, .short, 2048⟩, ⟨8, .short, 2048⟩], []⟩
      ∧ ¬ (([⟨7, .short, 2048⟩, ⟨8, .short, 2048⟩] : List JArray).length ≤ 1) := by
  decide

/-- Every state a sequence of calls that respects the session state machine passes
through has the references alive equal to the references held. -/
theorem heldOnly_visited (ops : List Op) (w w1 : World) (hinv : HeldOnly w)
    (hdisc : disciplined ops w = true) (hmem : w1 ∈ visited ops w) : HeldOnly w1 := by
  induction ops generalizing w with
  | nil =>
    simp only [visited, List.mem_singleton] at hmem
    subst hmem
    exact hinv
  | cons op ops ih =>
    simp only [disciplined, Bool.and_eq_true] at hdisc
    simp only [visited, List.mem_cons] at hmem
    rcases hmem with hmem | hmem
    · subst hmem
      exact hinv
    · cases hs : step w op with
      | none => simp [hs] at hmem
      | some w2 =>
        simp only [hs] at hmem hdisc
        exact ih w2 (heldOnly_step w w2 op hinv hdisc.1 hs) hdisc.2 hmem

/-- The end state of a sequence of calls is one of the states it passes through. -/
theorem run_mem_visited (ops : List Op) (w w1 : World) (hrun : run ops w = some w1) :
    w1 ∈ visited ops w := by
  induction ops generalizing w with
  | nil =>
    simp only [run, Option.some.injEq] at hrun
    simp [visited, hrun]
  | cons op ops ih =>
    simp only [run] at hrun
    cases hs : step w op with
    | none => simp [hs] at hrun
    | some w2 =>
      simp only [hs] at hrun
      simp only [visited, hs, List.mem_cons]
      exact Or.inr (ih w2 hrun)

/-- C11, amended: in every state reachable from the initial state (closed, no
references) by a sequence of Open, Close, Commit, Read and Flush calls on the two
directions in which Open for a direction is called only while the bridge holds no
reference for that direction (a reopen passes through Close), at most one reference
that a `NewGlobalRef` call has made and no `DeleteGlobalRef` call has yet released
exists per direction, and it is the one the bridge holds. This holds of every state
the sequence passes through, also when it ends at a Read without a defined result,
and so of its end state. -/
theorem one_reference_alive_per_direction (ops : List Op)
    (hdisc : disciplined ops .initial = true) :
    (∀ w ∈ visited ops .initial, ∀ iscapture : Bool,
        (w.live iscapture).length ≤ 1
          ∧ w.live iscapture = (w.globals.buffer iscapture).toList)
      ∧ ∀ w, run ops .initial = some w → ∀ iscapture : Bool,
          (w.live iscapture).length ≤ 1
            ∧ w.live iscapture = (w.globals.buffer iscapture).toList := by
  have key : ∀ w ∈ visited ops .initial, ∀ iscapture : Bool,
      (w.live iscapture).length ≤ 1
        ∧ w.live iscapture = (w.globals.buffer iscapture).toList := by
    intro w hmem iscapture
    have h := heldOnly_visited ops .initial w heldOnly_initial hdisc hmem iscapture
    refine ⟨?_, h⟩
    rw [h]
    cases w.globals.buffer iscapture <;> simp
  exact ⟨key, fun w hrun => key w (run_mem_visited ops .initial w hrun)⟩

/-- Instance of C11 (amended): a session that opens, writes, closes and reopens
output and opens, reads, flushes and closes capture ends with one reference alive
for output and none for capture. -/
theorem one_reference_alive_per_direction_witness :
    disciplined sessionOps .initial = true
      ∧ ∃ w, run sessionOps .initial = some w
          ∧ (w.live false).length ≤ 1 ∧ (w.live true).length ≤ 1 :=
  ⟨by decide,
    ⟨{ audioBufferFormat := 2, audioBuffer := some ⟨8, .short, 2048⟩,
       audioBufferPinned := 8192, captureBufferFormat := 3, captureBuffer := none },
     [⟨8, .short, 2048⟩], []⟩,
    by decide,
    ((one_reference_alive_per_direction sessionOps (by decide)).2 _ (by decide) false).1,
    ((one_reference_alive_per_direction sessionOps (by decide)).2 _ (by decide) true).1⟩

/-- A sequence that ends at a Read without a defined result: the capture session is
closed and then read from. It passes through three states, and the references alive
in the last one are those held (none). -/
theorem visited_readAfterClose :
    disciplined readAfterCloseOps .initial = true
      ∧ run readAfterCloseOps .initial = none
      ∧ visited readAfterCloseOps .initial
          = [.initial,
             ⟨{ AudioGlobals.initial with captureBufferFormat := 3,
                                          captureBuffer := some ⟨7, .byte, 4⟩ },
               [], [⟨7, .byte, 4⟩]⟩,
             ⟨{ AudioGlobals.initial with captureBufferFormat := 3 }, [], []⟩] := by
  decide

/-! ## Permission requests -/

/-- C12 fails on the code: with two threads inside `Android_JNI_RequestPermission`,
the schedule in which both leave the first wait loop (the flag is clear) before
either sets the flag, and then each sets it and calls `requestPermission`, ends with
two request calls made, two requests in flight and the flag still set: the second
call was made while the first request was in flight, no completion having run. -/
theorem permission_requests_overlap :
    permissionRun (fun _ => true)
        [.caller 0, .caller 1, .caller 0, .caller 0, .caller 1, .caller 1]
        (.start ["android.permission.RECORD_AUDIO", "android.permission.CAMERA"] false)
      = { state := ⟨true, false⟩,
          callers := [⟨"android.permission.RECORD_AUDIO", .waitDone⟩,
                      ⟨"android.permission.CAMERA", .waitDone⟩],
          inflight := [⟨1, true, false⟩, ⟨1, true, false⟩],
          requests := [⟨0, "android.permission.RECORD_AUDIO", 1⟩,
                       ⟨1, "android.permission.CAMERA", 1⟩] } := by
  decide

theorem singleCallerInv_start (grant : String → Bool) (name : String) (result : Bool) :
    SingleCallerInv grant name (.start [name] result) :=
  ⟨.waitFree, rfl, rfl, rfl, rfl⟩

/-- Every step of the process, by the thread or by the service, keeps
`SingleCallerInv`. -/
theorem singleCallerInv_step (grant : String → Bool) (name : String) (c : PermissionConfig)
    (a : Actor) (hinv : SingleCallerInv grant name c) :
    SingleCallerInv grant name (permissionStep grant c a) := by
  obtain ⟨pc, hc, h⟩ := hinv
  obtain ⟨⟨pending, result⟩, callers, inflight, requests⟩ := c
  simp only at hc h
  subst hc
  cases a with
  | caller i =>
    cases i with
    | succ n => exact ⟨pc, by simp [permissionStep], by simpa [permissionStep] using h⟩
    | zero =>
      cases pc with
      | waitFree =>
        obtain ⟨h1, h2, h3⟩ := h
        subst h1 h2 h3
        exact ⟨.setPending, by simp [permissionStep, callerStep],
          by simp [permissionStep, callerStep]⟩
      | setPending =>
        obtain ⟨h1, h2, h3⟩ := h
        subst h1 h2 h3
        exact ⟨.request, by simp [permissionStep, callerStep],
          by simp [permissionStep, callerStep]⟩
      | request =>
        obtain ⟨h1, h2, h3⟩ := h
        subst h1 h2 h3
        exact ⟨.waitDone, by simp [permissionStep, callerStep],
          by simp [permissionStep, callerStep]⟩
      | waitDone =>
        obtain ⟨h0, h | h | h⟩ := h
        · obtain ⟨h1, h2⟩ := h
          subst h0 h1 h2
          exact ⟨.waitDone, by simp [permissionStep, callerStep],
            by simp [permissionStep, callerStep]⟩
        · obtain ⟨h1, h2, h3⟩ := h
          subst h0 h1 h2 h3
          exact ⟨.waitDone, by simp [permissionStep, callerStep],
            by simp [permissionStep, callerStep]⟩
        · obtain ⟨h1, h2, h3⟩ := h
          subst h0 h1 h2 h3
          exact ⟨.readResult, by simp [permissionStep, callerStep],
            by simp [permissionStep, callerStep]⟩
      | readResult =>
        obtain ⟨h0, h1, h2, h3⟩ := h
        subst h0 h1 h2 h3
        exact ⟨.returned (grant name), by simp [permissionStep, callerStep],
          by simp [permissionStep, callerStep]⟩
      | returned v =>
        obtain ⟨h0, h1, h2, h3, h4⟩ := h
        subst h0 h1 h2 h3 h4
        exact ⟨.returned (grant name), by simp [permissionStep, callerStep],
          by simp [permissionStep, callerStep]⟩
  | service =>
    cases pc with
    | waitFree =>
      obtain ⟨h1, h2, h3⟩ := h
      subst h1 h2 h3
      exact ⟨.waitFree, rfl, by simp [permissionStep, serviceStep]⟩
    | setPending =>
      obtain ⟨h1, h2, h3⟩ := h
      subst h1 h2 h3
      exact ⟨.setPending, rfl, by simp [permissionStep, serviceStep]⟩
    | request =>
      obtain ⟨h1, h2, h3⟩ := h
      subst h1 h2 h3
      exact ⟨.request, rfl, by simp [permissionStep, serviceStep]⟩
    | waitDone =>
      obtain ⟨h0, h | h | h⟩ := h
      · obtain ⟨h1, h2⟩ := h
        subst h0 h1 h2
        exact ⟨.waitDone, rfl, by simp [permissionStep, serviceStep]⟩
      · obtain ⟨h1, h2, h3⟩ := h
        subst h0 h1 h2 h3
        exact ⟨.waitDone, rfl, by simp [permissionStep, serviceStep]⟩
      · obtain ⟨h1, h2, h3⟩ := h
        subst h0 h1 h2 h3
        exact ⟨.waitDone, rfl, by simp [permissionStep, serviceStep]⟩
    | readResult =>
      obtain ⟨h0, h1, h2, h3⟩ := h
      subst h0 h1 h2 h3
      exact ⟨.readResult, rfl, by simp [permissionStep, serviceStep]⟩
    | returned v =>
      obtain ⟨h0, h1, h2, h3, h4⟩ := h
      subst h0 h1 h2 h3 h4
      exact ⟨.returned (grant name), rfl, by simp [permissionStep, serviceStep]⟩

/-- Every schedule keeps `SingleCallerInv`. -/
theorem singleCallerInv_run (grant : String → Bool) (name : String) (schedule : List Actor)
    (c : PermissionConfig) (hinv : SingleCallerInv grant name c) :
    SingleCallerInv grant name (permissionRun grant schedule c) := by
  induction schedule generalizing c with
  | nil => exact hinv
  | cons a rest ih => exact ih _ (singleCallerInv_step grant name c a hinv)

theorem permissionRun_append (grant : String → Bool) (s1 s2 : List Actor)
    (c : PermissionConfig) :
    permissionRun grant (s1 ++ s2) c = permissionRun grant s2 (permissionRun grant s1 c) := by
  simp [permissionRun, List.foldl_append]

/-- A thread in the second loop that finds the flag set stays where it is, however
often it polls. -/
theorem poll_while_pending (grant : String → Bool) (name : String) (d : Nat)
    (c : PermissionConfig) (hc : c.callers = [⟨name, .waitDone⟩])
    (hp : c.state.pending = true) :
    permissionRun grant (List.replicate d (.caller 0)) c = c := by
  induction d with
  | zero => rfl
  | succ d ih =>
    have hstep : permissionStep grant c (.caller 0) = c := by
      obtain ⟨⟨pending, result⟩, callers, inflight, requests⟩ := c
      simp only at hc hp
      subst hc hp
      simp [permissionStep, callerStep]
    rw [List.replicate_succ]
    show permissionRun grant (List.replicate d (.caller 0)) (permissionStep grant c (.caller 0))
      = c
    rw [hstep, ih]

/-- The single caller returns the service's answer, whenever the completion
arrives. -/
theorem singleCaller_returns (grant : String → Bool) (name : String) (result : Bool)
    (d1 d2 : Nat) :
    permissionRun grant (singleCallerSchedule d1 d2) (.start [name] result)
      = { state := ⟨false, grant name⟩,
          callers := [⟨name, .returned (grant name)⟩],
          inflight := [],
          requests := [⟨0, name, 1⟩] } := by
  unfold singleCallerSchedule
  simp only [permissionRun_append]
  have h3 : permissionRun grant (List.replicate 3 (.caller 0)) (.start [name] result)
      = { state := ⟨true, result⟩, callers := [⟨name, .waitDone⟩],
          inflight := [⟨1, grant name, false⟩], requests := [⟨0, name, 1⟩] } := by
    simp [permissionRun, permissionStep, callerStep, PermissionConfig.start, List.replicate]
  rw [h3, poll_while_pending grant name d1 _ rfl rfl]
  have hs1 : permissionRun grant [.service]
      { state := ⟨true, result⟩, callers := [⟨name, .waitDone⟩],
        inflight := [⟨1, grant name, false⟩], requests := [⟨0, name, 1⟩] }
      = { state := ⟨true, grant name⟩, callers := [⟨name, .waitDone⟩],
          inflight := [⟨1, grant name, true⟩], requests := [⟨0, name, 1⟩] } := by
    simp [permissionRun, permissionStep, serviceStep]
  rw [hs1, poll_while_pending grant name d2 _ rfl rfl]
  simp [permissionRun, permissionStep, serviceStep, callerStep]

/-- C13: a single caller of `Android_JNI_RequestPermission(name)` that starts with the
pending flag clear, against a service that answers the request with one completion
callback carrying r = grant name. Under every schedule of the caller's and the
service's steps at most one request call is made, it carries the fixed request code
1, and a caller that has returned has returned r with the flag clear and nothing in
flight. The caller sets the flag with its second step and makes the request call
with its third. Whenever the two assignments of the callback arrive during the
second wait loop, the call returns r with pending false after exactly one request
call. The callback `nativePermissionResult` sets result to r and clears pending
whatever request code it is given, and that is what the two callback steps of the
service do. -/
theorem request_permission_single_caller (grant : String → Bool) (name : String)
    (result : Bool) :
    (∀ schedule : List Actor,
      let c := permissionRun grant schedule (.start [name] result)
      (c.requests = [] ∨ c.requests = [⟨0, name, 1⟩])
        ∧ ∀ v, c.callers = [⟨name, .returned v⟩] →
            v = grant name ∧ c.state = ⟨false, grant name⟩
              ∧ c.requests = [⟨0, name, 1⟩] ∧ c.inflight = [])
      ∧ (permissionRun grant [.caller 0, .caller 0] (.start [name] result)).state.pending
          = true
      ∧ (permissionRun grant [.caller 0, .caller 0, .caller 0]
          (.start [name] result)).requests = [⟨0, name, 1⟩]
      ∧ (∀ d1 d2 : Nat,
          permissionRun grant (singleCallerSchedule d1 d2) (.start [name] result)
            = { state := ⟨false, grant name⟩,
                callers := [⟨name, .returned (grant name)⟩],
                inflight := [],
                requests := [⟨0, name, 1⟩] })
      ∧ (∀ (s : PermissionState) (requestCode : Int) (r : Bool),
          nativePermissionResult s requestCode r = ⟨false, r⟩)
      ∧ (∀ (c : PermissionConfig) (requestCode : Int) (r : Bool) (rest : List Completion),
          c.inflight = ⟨requestCode, r, false⟩ :: rest →
            (serviceStep (serviceStep c)).state = nativePermissionResult c.state requestCode r
              ∧ (serviceStep (serviceStep c)).inflight = rest) := by
  refine ⟨?_, ?_, ?_, ?_, ?_, ?_⟩
  · intro schedule c
    obtain ⟨pc, hc, h⟩ := singleCallerInv_run grant name schedule _
      (singleCallerInv_start grant name result)
    have hc2 : c.callers = [⟨name, pc⟩] := hc
    have hst : ∀ p r, c.state.pending = p → c.state.result = r → c.state = ⟨p, r⟩ := by
      intro p r hp hr
      cases hcs : c.state
      simp_all
    constructor
    · cases pc <;> simp only at h
      · exact Or.inl h.2.2
      · exact Or.inl h.2.2
      · exact Or.inl h.2.2
      · exact Or.inr h.1
      · exact Or.inr h.1
      · exact Or.inr h.1
    · intro v hv
      rw [hc2] at hv
      simp only [List.cons.injEq, Caller.mk.injEq, true_and, and_true] at hv
      subst hv
      simp only at h
      obtain ⟨h0, h1, h2, h3, h4⟩ := h
      exact ⟨h4, hst _ _ h1 h3, h0, h2⟩
  · simp [permissionRun, permissionStep, callerStep, PermissionConfig.start]
  · simp [permissionRun, permissionStep, callerStep, PermissionConfig.start]
  · exact singleCaller_returns grant name result
  · intro s requestCode r
    rfl
  · intro c requestCode r rest hc
    obtain ⟨⟨pending, res⟩, callers, inflight, requests⟩ := c
    simp only at hc
    subst hc
    simp [serviceStep, nativePermissionResult]

/-! ## Device handles -/

/-- On a platform whose `size_t` has at least 32 bits, the handle of a non-negative
32-bit device id is the id plus one. -/
theorem deviceHandle_eq (ptrBits : Nat) (hbits : 32 ≤ ptrBits) (id : Int)
    (hlo : 0 ≤ id) (hhi : id < 2 ^ 31) :
    (deviceHandle ptrBits id : Int) = id + 1 := by
  have hpow : (2 : Int) ^ 32 ≤ 2 ^ ptrBits := pow_le_pow_right₀ (by norm_num) hbits
  have h1 : id % 2 ^ ptrBits = id := Int.emod_eq_of_lt hlo (by omega)
  have h2 : (id + 1) % 2 ^ ptrBits = id + 1 := Int.emod_eq_of_lt (by omega) (by omega)
  unfold deviceHandle toSizeT
  rw [h1, h2]
  exact Int.toNat_of_nonneg (by omega)

/-- C14: for every non-negative 32-bit device id (on a platform whose `size_t` has at
least 32 bits) the handle the bridge derives from it is id + 1, which is not the
sentinel 0 and differs from the handle of every other such id; enumeration
(`Android_DetectDevices`) registers each reported id with that handle, and the add
and the remove notification, when an audio driver is current, pass that same handle,
so a removal names the handle the device was added with. -/
theorem device_handle_id_plus_one (ptrBits : Nat) (id other : Int)
    (hbits : 32 ≤ ptrBits)
    (hlo : 0 ≤ id) (hhi : id < 2 ^ 31) (hlo2 : 0 ≤ other) (hhi2 : other < 2 ^ 31) :
    (deviceHandle ptrBits id : Int) = id + 1
      ∧ deviceHandle ptrBits id ≠ 0
      ∧ (deviceHandle ptrBits id = deviceHandle ptrBits other → id = other)
      ∧ (∀ vm : JavaVM,
          Android_DetectDevices ptrBits vm =
            [.getAudioInputDevices]
              ++ (vm.getAudioInputDevices.take 100).map
                  (fun d => .SDL_AddAudioDevice true (toString d) (deviceHandle ptrBits d))
              ++ [.getAudioOutputDevices]
              ++ (vm.getAudioOutputDevices.take 100).map
                  (fun d => .SDL_AddAudioDevice false (toString d) (deviceHandle ptrBits d)))
      ∧ ∀ is_capture : Bool,
          addAudioDevice ptrBits true is_capture id
              = [.SDL_AddAudioDevice is_capture (toString id) (deviceHandle ptrBits id)]
            ∧ removeAudioDevice ptrBits true is_capture id
              = [.SDL_RemoveAudioDevice is_capture (deviceHandle ptrBits id)] := by
  have h1 := deviceHandle_eq ptrBits hbits id hlo hhi
  have h2 := deviceHandle_eq ptrBits hbits other hlo2 hhi2
  refine ⟨h1, ?_, ?_, ?_, ?_⟩
  · intro h0
    rw [h0] at h1
    simp at h1
    omega
  · intro heq
    rw [heq] at h1
    omega
  · intro vm
    exact detectDevices_eq ptrBits vm
  · intro is_capture
    exact ⟨rfl, rfl⟩

/-- Instance of C14: ids 5 and 6 on a 64-bit platform. -/
theorem device_handle_id_plus_one_witness :
    (deviceHandle 64 5 : Int) = 5 + 1 ∧ deviceHandle 64 5 ≠ 0
      ∧ (deviceHandle 64 5 = deviceHandle 64 6 → (5 : Int) = 6) :=
  ⟨(device_handle_id_plus_one 64 5 6 (by decide) (by decide) (by decide) (by decide)
      (by decide)).1,
    (device_handle_id_plus_one 64 5 6 (by decide) (by decide) (by decide) (by decide)
      (by decide)).2.1,
    (device_handle_id_plus_one 64 5 6 (by decide) (by decide) (by decide) (by decide)
      (by decide)).2.2.1⟩

/-! ## Flush -/

/-- C15: `Android_JNI_FlushCapturedAudio` is a total function of the statics alone (no
loop; the count the read call returns is not used), it leaves the statics unchanged,
and its trace is exactly one read call with blocking = false, of the variant of the
stored capture encoding (byte for 3, short for 2, float for 4) and on the stored
capture buffer, with no copy; when the stored capture encoding is none of 3, 2, 4 the
trace is empty. -/
theorem flush_one_nonblocking_read (g : AudioGlobals) :
    (Android_JNI_FlushCapturedAudio g).1 = g
      ∧ (Android_JNI_FlushCapturedAudio g).2
          = (kindOfWire g.captureBufferFormat).toList.map
              (fun kind => Event.captureReadBuffer kind g.captureBuffer false)
      ∧ ((Android_JNI_FlushCapturedAudio g).2.filter Event.isCopy = [])
      ∧ (g.captureBufferFormat = 3 →
          (Android_JNI_FlushCapturedAudio g).2 = [.captureReadBuffer .byte g.captureBuffer false])
      ∧ (g.captureBufferFormat = 2 →
          (Android_JNI_FlushCapturedAudio g).2
            = [.captureReadBuffer .short g.captureBuffer false])
      ∧ (g.captureBufferFormat = 4 →
          (Android_JNI_FlushCapturedAudio g).2
            = [.captureReadBuffer .float g.captureBuffer false])
      ∧ (g.captureBufferFormat ≠ 3 ∧ g.captureBufferFormat ≠ 2 ∧ g.captureBufferFormat ≠ 4 →
          (Android_JNI_FlushCapturedAudio g).2 = []) := by
  refine ⟨?_, ?_, ?_, ?_, ?_, ?_, ?_⟩
  · unfold Android_JNI_FlushCapturedAudio
    split <;> rfl
  · unfold Android_JNI_FlushCapturedAudio
    split <;> simp_all
  · unfold Android_JNI_FlushCapturedAudio
    split <;> simp [Event.isCopy]
  · intro h
    simp [Android_JNI_FlushCapturedAudio, kindOfWire, h, ENCODING_PCM_8BIT]
  · intro h
    simp [Android_JNI_FlushCapturedAudio, kindOfWire, h, ENCODING_PCM_8BIT,
      ENCODING_PCM_16BIT]
  · intro h
    simp [Android_JNI_FlushCapturedAudio, kindOfWire, h, ENCODING_PCM_8BIT,
      ENCODING_PCM_16BIT, ENCODING_PCM_FLOAT]
  · intro h
    simp [Android_JNI_FlushCapturedAudio, (kindOfWire_eq_none_iff _).mpr h]

/-! ## What a failed Open leaves behind -/

/-- C16: for a request with a supported encoding, when Open fails with ProtocolMismatch
because the reply has four values and an unrecognised wire encoding, the caller's
format has its sample rate overwritten with the first value of the reply while its
encoding, channels and frames per buffer keep the requested values, and the statics
(format, reference and pinned pointer of both directions) are unchanged; when it
fails because there is no result (ServiceInitFailed) or because the reply has not
four values (ProtocolMismatch), the caller's format and the statics are unchanged. -/
theorem open_failure_frame (vm : JavaVM) (g : AudioGlobals) (iscapture : Bool)
    (device_id : Int) (spec : SDL_AudioSpec) (w : Int)
    (hsup : wireOfFormat spec.format = some w) :
    let reply := vm.openReply iscapture spec.freq w spec.channels spec.samples device_id
    let r := Android_JNI_OpenAudioDevice vm g iscapture device_id spec
    (∀ r0 r1 r2 r3 : Int, reply = some [r0, r1, r2, r3] → r1 ≠ 3 ∧ r1 ≠ 2 ∧ r1 ≠ 4 →
        r.ret = -1 ∧ r.error.map SDL_Error.kind = some .ProtocolMismatch
          ∧ r.spec = { spec with freq := r0 }
          ∧ r.spec.freq = r0 ∧ r.spec.format = spec.format
          ∧ r.spec.channels = spec.channels ∧ r.spec.samples = spec.samples
          ∧ r.globals = g)
      ∧ (reply = none →
          r.ret = -1 ∧ r.error.map SDL_Error.kind = some .ServiceInitFailed
            ∧ r.spec = spec ∧ r.globals = g)
      ∧ (∀ xs : List Int, reply = some xs → xs.length ≠ 4 →
          r.ret = -1 ∧ r.error.map SDL_Error.kind = some .ProtocolMismatch
            ∧ r.spec = spec ∧ r.globals = g) := by
  intro reply r
  refine ⟨?_, ?_, ?_⟩
  · intro r0 r1 r2 r3 hrep hr1
    have hr : r = _ := open_unrecognised_eq vm g iscapture device_id spec w r0 r1 r2 r3 hsup
      hrep ((formatOfWire_eq_none_iff r1).mpr hr1)
    rw [hr]
    simp [SDL_Error.kind]
  · intro hrep
    have hr : r = _ := open_no_result_eq vm g iscapture device_id spec w hsup hrep
    rw [hr]
    simp [SDL_Error.kind]
  · intro xs hrep hlen
    have hr : r = _ := open_wrong_length_eq vm g iscapture device_id spec w xs hsup hrep hlen
    rw [hr]
    simp [SDL_Error.kind]

/-- Instance of C16: the scenario's request answered with 48000 Hz and the unknown wire
encoding 7: Open fails and the caller's format is the request with 48000 Hz. -/
theorem open_failure_frame_witness :
    wireOfFormat scenarioSpec.format = some 2
      ∧ (Android_JNI_OpenAudioDevice (fixedVM (some [48000, 7, 1, 512]) true (some 7) 4096 0)
          .initial false 2 scenarioSpec).spec = ⟨48000, .AUDIO_S16, 2, 1024⟩
      ∧ (Android_JNI_OpenAudioDevice (fixedVM (some [48000, 7, 1, 512]) true (some 7) 4096 0)
          .initial false 2 scenarioSpec).globals = .initial :=
  ⟨rfl,
    ((open_failure_frame (fixedVM (some [48000, 7, 1, 512]) true (some 7) 4096 0) .initial
      false 2 scenarioSpec 2 rfl).1 48000 7 1 512 rfl (by decide)).2.2.1,
    ((open_failure_frame (fixedVM (some [48000, 7, 1, 512]) true (some 7) 4096 0) .initial
      false 2 scenarioSpec 2 rfl).1 48000 7 1 512 rfl (by decide)).2.2.2.2.2.2.2⟩

end SDLAndroidAudio
